import Mathlib

/-!
Verification of the GenXcoder agent-service orchestration core.

Shallow embedding of:
- `models/feedback.py` (quality metrics, structured feedback, iteration results),
- `core/iterative_executor.py` (bounded improver/evaluator loop and feedback
  normalization),
- `core/agent_manager_v2.py` (wave-by-wave pipeline execution, progress
  tracking, input validation).

Python floats are modelled as rationals (all arithmetic in these modules is
exact small-number arithmetic: sums, differences, clamps and one division).
Wall-clock quantities (timestamps, elapsed/estimated times) are not modelled:
no verified property mentions them.  Agent invocations are modelled as an
environment supplying each call's outcome (success with an output value, or
failure with an error message covering both exceptions and timeouts), since
the agents themselves are external collaborators.
-/

/-! ## Python string primitives used by the embedded code -/

/-- Whitespace characters stripped by Python `str.strip()` (ASCII range). -/
def pyIsSpace (c : Char) : Bool :=
  c == ' ' || c == '\t' || c == '\n' || c == '\r' || c == Char.ofNat 11 || c == Char.ofNat 12

/-- Python `str.strip()`: drop leading and trailing whitespace. -/
def pyStrip (s : String) : String :=
  String.mk (((s.data.dropWhile pyIsSpace).reverse.dropWhile pyIsSpace).reverse)

/-- Python `str.lower()` (the embedded keyword tests are all ASCII). -/
def pyLower (s : String) : String :=
  s.toLower

/-- Does the character list start with the given needle? -/
def charsStartWith : List Char → List Char → Bool
  | [], _ => true
  | _ :: _, [] => false
  | n :: ns, h :: hs => n == h && charsStartWith ns hs

/-- Substring containment on character lists. -/
def charsContain (needle : List Char) : List Char → Bool
  | [] => needle.isEmpty
  | c :: rest => charsStartWith needle (c :: rest) || charsContain needle rest

/-- Python `needle in hay` on strings. -/
def strContains (hay needle : String) : Bool :=
  charsContain needle.data hay.data

/-! ## Data model from `models/feedback.py` -/

/-- `FeedbackType` enum. -/
inductive FeedbackType where
  | code_quality | functionality | performance | security | maintainability | style
deriving DecidableEq, Repr

/-- `SeverityLevel` enum. -/
inductive SeverityLevel where
  | critical | high | medium | low | info
deriving DecidableEq, Repr

/-- `FeedbackIssue` dataclass. -/
structure FeedbackIssue where
  type : FeedbackType
  severity : SeverityLevel
  message : String
  line_number : Option Nat := none
  code_snippet : Option String := none
  suggestion : Option String := none
deriving DecidableEq, Repr

/-- `QualityMetrics` dataclass: the six sub-metric scores, defaults 0.0. -/
structure QualityMetrics where
  complexity_score : ℚ := 0
  maintainability_score : ℚ := 0
  readability_score : ℚ := 0
  test_coverage : ℚ := 0
  performance_score : ℚ := 0
  security_score : ℚ := 0
deriving DecidableEq, Repr

/-- `QualityMetrics.overall_score`: average of the six sub-metric scores. -/
def QualityMetrics.overall_score (m : QualityMetrics) : ℚ :=
  (m.complexity_score + m.maintainability_score + m.readability_score +
    m.test_coverage + m.performance_score + m.security_score) / 6

/-- `StructuredFeedback` dataclass.  The `timestamp` field (wall clock) is not
modelled. -/
structure StructuredFeedback where
  quality_score : ℚ
  quality_metrics : QualityMetrics
  issues : List FeedbackIssue := []
  suggestions : List String := []
  positive_aspects : List String := []
  iteration_number : Nat := 1
  reviewer_agent : String := ""
deriving DecidableEq, Repr

/-- `StructuredFeedback.meets_threshold`: `quality_score >= threshold`. -/
def StructuredFeedback.meets_threshold (f : StructuredFeedback) (threshold : ℚ) : Bool :=
  decide (f.quality_score ≥ threshold)

/-- Universal Python value, covering the shapes flowing through the executor
and the manager: strings, numbers, booleans, `None`, lists, dicts,
`StructuredFeedback` objects, and the string produced by
`FeedbackProcessor.format_feedback_for_agent`.  The last is kept abstract as a
constructor carrying the feedback it renders: its exact text depends on
Python float formatting and no verified property inspects it. -/
inductive PyVal where
  | str (s : String)
  | num (q : ℚ)
  | bool (b : Bool)
  | pyNone
  | list (items : List PyVal)
  | dict (entries : List (String × PyVal))
  | feedback (f : StructuredFeedback)
  | formattedFeedback (f : StructuredFeedback)
deriving Repr

/-- `IterationResult` dataclass. -/
structure IterationResult where
  iteration_number : Nat
  agent_type : String
  input_data : PyVal
  output_data : Option PyVal
  feedback : Option StructuredFeedback := none
  execution_time : ℚ := 0
  success : Bool := true
  error_message : Option String := none
deriving Repr

/-- `IterativeLoopResult` dataclass.  `total_execution_time` (wall clock) is
not modelled. -/
structure IterativeLoopResult where
  loop_name : String
  total_iterations : Nat
  final_quality_score : ℚ
  quality_threshold : ℚ
  threshold_met : Bool
  iterations : List IterationResult := []
  final_output : Option PyVal := none
  improvement_trend : List ℚ := []
deriving Repr

/-- `IterativeLoopResult.get_quality_improvement`. -/
def IterativeLoopResult.get_quality_improvement (r : IterativeLoopResult) : ℚ :=
  if r.improvement_trend.length < 2 then 0
  else r.improvement_trend.getLastD 0 - r.improvement_trend.headD 0

/-! ## Dict helpers (Python `dict.get` / `in`) -/

/-- Lookup in an insertion-ordered Python dict. -/
def dictLookup (entries : List (String × PyVal)) (k : String) : Option PyVal :=
  (entries.find? (fun e => e.1 == k)).map (fun e => e.2)

/-- Python `k in d`. -/
def dictContains (entries : List (String × PyVal)) (k : String) : Bool :=
  (dictLookup entries k).isSome

/-- Python `d.get(k, default)` where the call sites expect a number.  The
model covers dicts whose score-valued entries, when present, are numeric. -/
def dictGetNum (entries : List (String × PyVal)) (k : String) (default : ℚ) : ℚ :=
  match dictLookup entries k with
  | some (.num q) => q
  | _ => default

/-- Python `d.get(k, [])` where the call sites expect a list of strings.  The
model covers dicts whose list-valued entries hold strings. -/
def dictGetStrList (entries : List (String × PyVal)) (k : String) : List String :=
  match dictLookup entries k with
  | some (.list vs) => vs.filterMap (fun v => match v with | .str s => some s | _ => none)
  | _ => []

/-- Python `str(x)`.  Only the string case is inspected by any verified
property; other shapes get a simple rendering (Python's exact repr of floats
and containers is outside the model). -/
def pyStr : PyVal → String
  | .str s => s
  | .num q => toString q
  | .bool b => if b then "True" else "False"
  | .pyNone => "None"
  | .list _ => "[...]"
  | .dict _ => "{...}"
  | .feedback _ => "StructuredFeedback(...)"
  | .formattedFeedback _ => "Code Review Feedback (...)"

/-! ## Feedback normalization from `core/iterative_executor.py` -/

/-- Sentiment keywords raising the heuristic score (`_parse_text_feedback`). -/
def positive_keywords : List String :=
  ["good", "excellent", "well", "clear", "efficient", "secure"]

/-- Sentiment keywords lowering the heuristic score (`_parse_text_feedback`). -/
def negative_keywords : List String :=
  ["bad", "poor", "unclear", "inefficient", "insecure", "complex"]

/-- Keywords marking a line as a suggestion (`_parse_text_feedback`). -/
def suggestion_keywords : List String :=
  ["suggest", "recommend", "should", "could", "improve"]

/-- `sum(1 for keyword in kws if keyword in text)`. -/
def countMatches (text : String) (kws : List String) : Nat :=
  (kws.filter (fun k => strContains text k)).length

/-- `IterativeExecutor._parse_text_feedback`: heuristic scoring of free-form
evaluator text. -/
def parse_text_feedback (text_output : String) (iteration_number : Nat)
    (evaluator_name : String) : StructuredFeedback :=
  let text := pyLower text_output
  let positive_count := countMatches text positive_keywords
  let negative_count := countMatches text negative_keywords
  let raw_score : ℚ := 70 + (positive_count : ℚ) * 5 - (negative_count : ℚ) * 10
  let quality_score : ℚ := max 0 (min 100 raw_score)
  let suggestions :=
    (((text_output.splitOn "\n").filter
        (fun line => suggestion_keywords.any (fun w => strContains (pyLower line) w))).map
      pyStrip).take 5
  { quality_score := quality_score
    quality_metrics :=
      { complexity_score := quality_score
        maintainability_score := quality_score
        readability_score := quality_score
        test_coverage := max 0 (quality_score - 20)
        performance_score := quality_score
        security_score := quality_score }
    suggestions := suggestions
    iteration_number := iteration_number
    reviewer_agent := evaluator_name }

/-- The neutral fallback returned when parsing the evaluator output raises
(`_parse_evaluator_output`, except branch). -/
def fallbackFeedback (iteration_number : Nat) (evaluator_name : String) : StructuredFeedback :=
  { quality_score := 50
    quality_metrics :=
      { complexity_score := 50
        maintainability_score := 50
        readability_score := 50
        test_coverage := 0
        performance_score := 50
        security_score := 50 }
    suggestions := ["Unable to parse detailed feedback"]
    iteration_number := iteration_number
    reviewer_agent := evaluator_name }

/-- `IterativeExecutor._dict_to_structured_feedback`, reached only when
`quality_metrics` is absent or a dict (otherwise `.get` on it raises and the
caller's except branch yields the fallback). -/
def dict_to_structured_feedback (entries : List (String × PyVal)) (iteration_number : Nat)
    (evaluator_name : String) : StructuredFeedback :=
  let quality_metrics :=
    match dictLookup entries "quality_metrics" with
    | some (.dict m) =>
        { complexity_score := dictGetNum m "complexity_score" 50
          maintainability_score := dictGetNum m "maintainability_score" 50
          readability_score := dictGetNum m "readability_score" 50
          test_coverage := dictGetNum m "test_coverage" 0
          performance_score := dictGetNum m "performance_score" 50
          security_score := dictGetNum m "security_score" 50 }
    | _ => ({} : QualityMetrics)
  { quality_score := dictGetNum entries "quality_score" 50
    quality_metrics := quality_metrics
    issues := []
    suggestions := dictGetStrList entries "suggestions"
    positive_aspects := dictGetStrList entries "positive_aspects"
    iteration_number := iteration_number
    reviewer_agent := evaluator_name }

/-- The dict-with-`quality_score` branch of `_parse_evaluator_output`
(factored out of the dispatch below): a `quality_metrics` entry that is
present but not a dict makes `.get` on it raise `AttributeError`, which the
method's except branch absorbs into the neutral fallback. -/
def parse_qs_dict (entries : List (String × PyVal)) (iteration_number : Nat)
    (evaluator_name : String) : StructuredFeedback :=
  match dictLookup entries "quality_metrics" with
  | some (.dict _) => dict_to_structured_feedback entries iteration_number evaluator_name
  | none => dict_to_structured_feedback entries iteration_number evaluator_name
  | some _ => fallbackFeedback iteration_number evaluator_name

/-- The dict case of `_parse_evaluator_output`: line 282's
`isinstance(evaluator_output, dict) and "quality_score" in evaluator_output`
test decides between the structured-dict branch and the text fallback. -/
def parse_dict_feedback (entries : List (String × PyVal)) (iteration_number : Nat)
    (evaluator_name : String) : StructuredFeedback :=
  if dictContains entries "quality_score" then
    parse_qs_dict entries iteration_number evaluator_name
  else parse_text_feedback (pyStr (.dict entries)) iteration_number evaluator_name

/-- `IterativeExecutor._parse_evaluator_output`: dispatch over the three
evaluator-output shapes; normalization itself never raises. -/
def parse_evaluator_output : PyVal → Nat → String → StructuredFeedback
  | .dict entries, iteration_number, evaluator_name =>
      parse_dict_feedback entries iteration_number evaluator_name
  | .feedback f, iteration_number, evaluator_name =>
      { f with iteration_number := iteration_number, reviewer_agent := evaluator_name }
  | v, iteration_number, evaluator_name =>
      parse_text_feedback (pyStr v) iteration_number evaluator_name

/-! ## Iterative loop engine from `core/iterative_executor.py` -/

/-- Outcome of one `_execute_agent_with_timeout` call: success with the
agent's output and elapsed time, or failure carrying the already-formatted
error message (covering both `asyncio.TimeoutError` and exceptions). -/
inductive AgentCallResult where
  | ok (output : PyVal) (execution_time : ℚ)
  | err (msg : String) (execution_time : ℚ)
deriving Repr

/-- Per-iteration environment: the outcomes of the improver call and, were it
to be made, the evaluator call of that iteration. -/
abbrev IterEnv := Nat → AgentCallResult × AgentCallResult

/-- Accumulated loop variables of `execute_iterative_loop` (lines 52-57). -/
structure LoopState where
  iterations : List IterationResult
  improvement_trend : List ℚ
  current_input : PyVal
  final_output : Option PyVal
  final_quality_score : ℚ
  threshold_met : Bool
deriving Repr

/-- Next-iteration input built at lines 157-162 of the executor. -/
def next_iteration_input (initial_input improver_output : PyVal)
    (feedback : StructuredFeedback) (next_iter : Nat) : PyVal :=
  .dict [("original_request", initial_input),
         ("current_code", improver_output),
         ("feedback", .formattedFeedback feedback),
         ("iteration", .num next_iter)]

/-- The `for iteration in range(1, max_iterations + 1)` body of
`execute_iterative_loop`; `remaining` counts the iterations left in the
range, so the loop is entered with `iteration = 1`, `remaining =
max_iterations`. -/
def execute_iterations (env : IterEnv) (improver_name evaluator_name : String)
    (initial_input : PyVal) (quality_threshold : ℚ) (max_iterations : Nat) :
    Nat → Nat → LoopState → LoopState
  | _, 0, st => st
  | iteration, remaining + 1, st =>
    match env iteration with
    | (.err msg _, _) =>
        { st with iterations := st.iterations ++
            [{ iteration_number := iteration, agent_type := improver_name,
               input_data := st.current_input, output_data := none,
               success := false, error_message := some msg }] }
    | (.ok improver_output _, .err msg _) =>
        { st with iterations := st.iterations ++
            [{ iteration_number := iteration,
               agent_type := improver_name ++ "+" ++ evaluator_name,
               input_data := st.current_input, output_data := some improver_output,
               success := false, error_message := some ("Evaluator failed: " ++ msg) }] }
    | (.ok improver_output t_imp, .ok evaluator_output t_eval) =>
        let feedback := parse_evaluator_output evaluator_output iteration evaluator_name
        let st' : LoopState :=
          { st with
            iterations := st.iterations ++
              [{ iteration_number := iteration,
                 agent_type := improver_name ++ "+" ++ evaluator_name,
                 input_data := st.current_input, output_data := some improver_output,
                 feedback := some feedback, execution_time := t_imp + t_eval,
                 success := true }]
            improvement_trend := st.improvement_trend ++ [feedback.quality_score]
            final_output := some improver_output
            final_quality_score := feedback.quality_score }
        if feedback.meets_threshold quality_threshold then
          { st' with threshold_met := true }
        else
          execute_iterations env improver_name evaluator_name initial_input
            quality_threshold max_iterations (iteration + 1) remaining
            (if iteration < max_iterations then
              { st' with current_input :=
                  next_iteration_input initial_input improver_output feedback (iteration + 1) }
             else st')

/-- The loop variables as initialized at lines 52-57. -/
def loop_start (initial_input : PyVal) : LoopState :=
  { iterations := [], improvement_trend := [], current_input := initial_input,
    final_output := none, final_quality_score := 0, threshold_met := false }

/-- `IterativeExecutor.execute_iterative_loop` (events and wall-clock timing
omitted; agent invocations abstracted by `env`). -/
def execute_iterative_loop (loop_name : String) (env : IterEnv)
    (improver_name evaluator_name : String) (initial_input : PyVal)
    (max_iterations : Nat) (quality_threshold : ℚ) : IterativeLoopResult :=
  let st := execute_iterations env improver_name evaluator_name initial_input
    quality_threshold max_iterations 1 max_iterations (loop_start initial_input)
  { loop_name := loop_name
    total_iterations := st.iterations.length
    final_quality_score := st.final_quality_score
    quality_threshold := quality_threshold
    threshold_met := st.threshold_met
    iterations := st.iterations
    final_output := st.final_output
    improvement_trend := st.improvement_trend }

/-! ## Pipeline configuration

`config/pipeline_config.py` is not in the source tree; these definitions are
modelled from the spec (§3, §4.1): a `StepConfig` is iterative iff its
`IterativeConfig` is present, and the planner's output is an ordered list of
waves of step keys, carried here as data on the configuration. -/

/-- Modelled from the spec: `IterativeConfig` of `config/pipeline_config.py`
(not under src/): improver/evaluator bindings and loop parameters. -/
structure IterativeConfig where
  improver_agent : String
  evaluator_agent : String
  max_iterations : Nat
  quality_threshold : ℚ
  timeout_per_iteration : Nat := 300
deriving Repr

/-- Modelled from the spec: `StepConfig` of `config/pipeline_config.py` (not
under src/): agent binding, optionality, optional iterative configuration. -/
structure StepConfig where
  agent_type : String
  optional : Bool
  iterative_config : Option IterativeConfig := none
deriving Repr

/-- Modelled from the spec: "A step is iterative iff this
[`IterativeConfig`] is present." -/
def StepConfig.is_iterative (s : StepConfig) : Bool :=
  s.iterative_config.isSome

/-- Modelled from the spec: `PipelineConfig` of `config/pipeline_config.py`
(not under src/); `execution_order` carries the planner's waves
(`get_execution_order`), each wave a list of step keys. -/
structure PipelineConfig where
  name : String
  steps : List StepConfig
  execution_order : List (List String)
deriving Repr

/-- Modelled from the spec: `get_execution_order` returns the planner's
ordered waves. -/
def PipelineConfig.get_execution_order (c : PipelineConfig) : List (List String) :=
  c.execution_order

/-- Modelled from the spec: `get_step` finds the step bound to a step key. -/
def PipelineConfig.get_step (c : PipelineConfig) (step_name : String) : Option StepConfig :=
  c.steps.find? (fun s => s.agent_type == step_name)

/-! ## Progress tracking from `core/agent_manager_v2.py` -/

/-- One entry of `_progress_data['steps']`.  The display-only `name` and
`description` fields are omitted. -/
structure StepProgress where
  agent_type : String
  status : String
  progress_percentage : Nat
  optional : Bool
deriving DecidableEq, Repr

/-- `_progress_data` as built by `_initialize_progress_tracking` and mutated
during a run.  Wall-clock fields (`elapsed_time`, `estimated_remaining_time`)
and display-only fields (`current_step_info`, `logs`) are omitted. -/
structure ProgressData where
  total_steps : Nat
  completed_steps : Nat
  failed_steps : Nat
  progress_percentage : ℚ
  steps : List StepProgress
  is_running : Bool
  is_completed : Bool
  has_failures : Bool
deriving DecidableEq, Repr

/-- Manager state: current progress plus the sequence of progress snapshots
observable through `get_progress` at the run's suspension points (each
`await event_bus.publish`/`publish_agent_*` call, where the asyncio event
loop can interleave a concurrent `get_progress` read). -/
structure ManagerState where
  progress : ProgressData
  trace : List ProgressData
deriving Repr

/-- Record the current progress as observable at a suspension point. -/
def observe (st : ManagerState) : ManagerState :=
  { st with trace := st.trace ++ [st.progress] }

/-- `_initialize_progress_tracking`: every step pending, counters zero. -/
def init_progress (cfg : PipelineConfig) : ProgressData :=
  { total_steps := cfg.steps.length
    completed_steps := 0
    failed_steps := 0
    progress_percentage := 0
    steps := cfg.steps.map (fun s =>
      { agent_type := s.agent_type, status := "pending", progress_percentage := 0,
        optional := s.optional })
    is_running := false
    is_completed := false
    has_failures := false }

/-- Fresh manager state right after `initialize_pipeline`. -/
def init_manager_state (cfg : PipelineConfig) : ManagerState :=
  { progress := init_progress cfg, trace := [] }

/-- `_update_step_progress` body: set status/percentage of the first step
whose `agent_type` matches, then `break`. -/
def update_first_step : List StepProgress → String → String → Nat → List StepProgress
  | [], _, _, _ => []
  | s :: rest, n, status, pct =>
      if s.agent_type == n then { s with status := status, progress_percentage := pct } :: rest
      else s :: update_first_step rest n status pct

/-- `AgentManagerV2._update_step_progress` (the display-only
`current_step_info` assignment is omitted). -/
def update_step_progress (p : ProgressData) (step_name status : String) (pct : Nat) : ProgressData :=
  { p with steps := update_first_step p.steps step_name status pct }

/-- `(completed_steps / total_steps) * 100 if total_steps > 0 else 0`. -/
def pct_of (completed total : Nat) : ℚ :=
  if total > 0 then ((completed : ℚ) / (total : ℚ)) * 100 else 0

/-- `AgentManagerV2._update_overall_progress` (the wall-clock estimates it
also refreshes are omitted). -/
def update_overall_progress (p : ProgressData) : ProgressData :=
  { p with progress_percentage := pct_of p.completed_steps p.total_steps }

/-! ## Pipeline execution from `core/agent_manager_v2.py`

Exceptions are modelled with `Except`: an `.error` is a raised Python
exception carrying its message (and the manager state at the raise). -/

/-- The run's agent world: which agent keys are in `_active_agents`, each
regular agent's `process` outcome per input, and the per-iteration call
outcomes inside each iterative step's loop. -/
structure AgentBehavior where
  active_agents : List String
  process : String → PyVal → Except String PyVal
  loop_env : String → IterEnv

/-- `AgentManagerV2._execute_iterative_step`.  The loop is labelled with the
agent keys (the source uses `metadata.name`, unavailable here; no verified
property inspects the labels).  The serialized `loop_result.to_dict()`
payload entries are omitted from the returned dicts. -/
def execute_iterative_step (beh : AgentBehavior) (step_config : StepConfig)
    (input_data : PyVal) (st : ManagerState) :
    Except (String × ManagerState) (PyVal × ManagerState) :=
  match step_config.iterative_config with
  | none =>
      .error ("Iterative step " ++ step_config.agent_type ++ " missing iterative configuration", st)
  | some iter_config =>
    if iter_config.improver_agent ∈ beh.active_agents then
      if iter_config.evaluator_agent ∈ beh.active_agents then
        let name := step_config.agent_type
        let st1 := observe { st with progress := update_step_progress st.progress name "running" 0 }
        let loop_result := execute_iterative_loop name (beh.loop_env name)
          iter_config.improver_agent iter_config.evaluator_agent input_data
          iter_config.max_iterations iter_config.quality_threshold
        if loop_result.threshold_met || loop_result.final_output.isSome then
          let p2 := update_step_progress st1.progress name "completed" 100
          let p2 := { p2 with completed_steps := p2.completed_steps + 1 }
          let st2 := observe { st1 with progress := p2 }
          let st3 := { st2 with progress := update_overall_progress st2.progress }
          .ok (.dict [("output", loop_result.final_output.getD .pyNone),
                      ("quality_score", .num loop_result.final_quality_score),
                      ("iterations_completed", .num loop_result.total_iterations),
                      ("threshold_met", .bool loop_result.threshold_met)], st3)
        else
          let p2 := update_step_progress st1.progress name "failed" 0
          let p2 := { p2 with failed_steps := p2.failed_steps + 1, has_failures := true }
          let st2 := observe { st1 with progress := p2 }
          let error_msg := "Iterative loop failed to produce valid output after " ++
            toString loop_result.total_iterations ++ " iterations"
          if step_config.optional then
            let st3 := { st2 with progress := update_overall_progress st2.progress }
            .ok (.dict [("error", .str error_msg), ("optional", .bool true)], st3)
          else
            let p3 := update_step_progress st2.progress name "failed" 0
            let p3 := { p3 with failed_steps := p3.failed_steps + 1, has_failures := true }
            let p3 := update_overall_progress p3
            let st3 := observe { st2 with progress := p3 }
            let st4 := { st3 with progress := update_overall_progress st3.progress }
            .error (error_msg, st4)
      else .error ("Evaluator agent " ++ iter_config.evaluator_agent ++ " not found in active agents", st)
    else .error ("Improver agent " ++ iter_config.improver_agent ++ " not found in active agents", st)

/-- `AgentManagerV2._execute_single_step`. -/
def execute_single_step (cfg : PipelineConfig) (beh : AgentBehavior) (step_name : String)
    (input_data : PyVal) (st : ManagerState) :
    Except (String × ManagerState) (PyVal × ManagerState) :=
  match cfg.get_step step_name with
  | none => .error ("Step configuration for " ++ step_name ++ " not found", st)
  | some step_config =>
    if step_config.is_iterative then
      execute_iterative_step beh step_config input_data st
    else
      if step_name ∈ beh.active_agents then
        let st1 := observe { st with progress := update_step_progress st.progress step_name "running" 0 }
        match beh.process step_name input_data with
        | .ok result =>
            let p2 := update_step_progress st1.progress step_name "completed" 100
            let p2 := update_overall_progress { p2 with completed_steps := p2.completed_steps + 1 }
            let st2 := observe { st1 with progress := p2 }
            .ok (result, st2)
        | .error e =>
            let p2 := update_step_progress st1.progress step_name "failed" 0
            let p2 := update_overall_progress
              { p2 with failed_steps := p2.failed_steps + 1, has_failures := true }
            let st2 := observe { st1 with progress := p2 }
            if step_config.optional then
              .ok (.dict [("error", .str e), ("optional", .bool true)], st2)
            else
              .error (e, st2)
      else .error ("Agent " ++ step_name ++ " not found in active agents", st)

/-- The parallel branch of `_execute_step_group`: each step gets the same
wave input; a step's exception is caught and becomes an `{"error": ...}`
entry (the coroutines are awaited sequentially in declaration order). -/
def execute_group_multi (cfg : PipelineConfig) (beh : AgentBehavior) :
    List String → PyVal → ManagerState → List (String × PyVal) →
    List (String × PyVal) × ManagerState
  | [], _, st, acc => (acc, st)
  | n :: rest, input_data, st, acc =>
    match execute_single_step cfg beh n input_data st with
    | .ok (r, st') => execute_group_multi cfg beh rest input_data st' (acc ++ [(n, r)])
    | .error (e, st') =>
        execute_group_multi cfg beh rest input_data st' (acc ++ [(n, .dict [("error", .str e)])])

/-- `AgentManagerV2._execute_step_group`: a single-step wave propagates the
step's exception; any other wave catches per-step exceptions. -/
def execute_step_group (cfg : PipelineConfig) (beh : AgentBehavior) (step_names : List String)
    (input_data : PyVal) (st : ManagerState) :
    Except (String × ManagerState) (List (String × PyVal) × ManagerState) :=
  match step_names with
  | [n] =>
      match execute_single_step cfg beh n input_data st with
      | .ok (r, st') => .ok ([(n, r)], st')
      | .error e => .error e
  | names => .ok (execute_group_multi cfg beh names input_data st [])

/-- Python `dict.update`: overwrite existing keys in place, append new ones. -/
def dict_update (base upd : List (String × PyVal)) : List (String × PyVal) :=
  upd.foldl (fun acc kv =>
    if (acc.find? (fun e => e.1 == kv.1)).isSome then
      acc.map (fun e => if e.1 == kv.1 then kv else e)
    else acc ++ [kv]) base

/-- The wave loop of `execute_pipeline` (lines 185-193): run each wave in
order, merge its results, and feed the wave's last result forward. -/
def run_waves (cfg : PipelineConfig) (beh : AgentBehavior) :
    List (List String) → PyVal → List (String × PyVal) → ManagerState →
    Except (String × ManagerState) (PyVal × List (String × PyVal) × ManagerState)
  | [], current_data, results, st => .ok (current_data, results, st)
  | wave :: rest, current_data, results, st =>
    match execute_step_group cfg beh wave current_data st with
    | .error e => .error e
    | .ok (group_results, st') =>
        let results' := dict_update results group_results
        let current' := if group_results.isEmpty then current_data
          else (group_results.getLastD ("", .pyNone)).2
        run_waves cfg beh rest current' results' st'

/-- The structured value returned by `execute_pipeline`: the success dict has
a `results` key, the failure dict an `error` key. -/
structure RunOutcome where
  success : Bool
  results : Option (List (String × PyVal)) := none
  error : Option String := none
  pipeline_name : String
deriving Repr

/-- The progress mutations at lines 162-164 of `execute_pipeline` followed by
the `PIPELINE_STARTED` publish (a suspension point, hence an `observe`). -/
def start_run_state (st : ManagerState) : ManagerState :=
  observe { st with progress :=
    { st.progress with is_running := true, is_completed := false, has_failures := false } }

/-- `AgentManagerV2.execute_pipeline`.  The outer `Except` is an exception
propagating out of the call: only the not-initialized `ValueError` (raised
before the `try` block) escapes; every failure inside the `try` is caught
and returned as a `success = False` outcome.  The best-effort backend save
(external service, never alters the result) and event payloads are
omitted. -/
def execute_pipeline (cfg? : Option PipelineConfig) (beh : AgentBehavior)
    (input_data : PyVal) (st : ManagerState) :
    Except String (RunOutcome × ManagerState) :=
  match cfg? with
  | none => .error "No pipeline configuration loaded. Call initialize_pipeline() first."
  | some cfg =>
    match run_waves cfg beh cfg.get_execution_order input_data [] (start_run_state st) with
    | .ok (_, results, st1) =>
        let st2 := { st1 with progress :=
          { st1.progress with
            is_running := false
            is_completed := true
            progress_percentage := 100 } }
        let st2 := observe st2
        .ok ({ success := true, results := some results, pipeline_name := cfg.name }, st2)
    | .error (e, st1) =>
        let st2 := { st1 with progress :=
          { st1.progress with is_running := false, has_failures := true } }
        let st2 := observe st2
        .ok ({ success := false, error := some e, pipeline_name := cfg.name }, st2)

/-! ## Input validation from `core/agent_manager_v2.py` -/

/-- The `{is_valid, warnings, suggestions}` dict built by `validate_input`. -/
structure ValidationResult where
  is_valid : Bool
  warnings : List String
  suggestions : List String
deriving DecidableEq, Repr

/-- Python `str.split()` with no separator: split on whitespace runs,
dropping empty pieces. -/
def pySplitWs (s : String) : List String :=
  (s.split (fun c => pyIsSpace c)).filter (fun t => !t.isEmpty)

/-- Technology keywords checked by `validate_input`. -/
def tech_keywords : List String :=
  ["python", "web", "api", "database", "gui", "cli", "script", "application", "tool"]

/-- `AgentManagerV2.validate_input`. -/
def validate_input (user_input : String) : ValidationResult :=
  if user_input.isEmpty || (pyStrip user_input).isEmpty then
    { is_valid := false, warnings := ["Input cannot be empty"], suggestions := [] }
  else
    let warnings :=
      (if (pyStrip user_input).length < 10 then
        ["Input is very short. Consider providing more details for better results."] else []) ++
      (if user_input.length > 5000 then
        ["Input is very long. Consider breaking it down into smaller, more focused requests."] else [])
    let input_lower := pyLower user_input
    let suggestions :=
      (if !(strContains input_lower "create") && !(strContains input_lower "build") &&
          !(strContains input_lower "develop") then
        ["Consider starting with action words like \x27Create\x27, \x27Build\x27, or \x27Develop\x27 to clarify your intent."]
       else []) ++
      (if !(tech_keywords.any (fun k => strContains input_lower k)) then
        ["Consider mentioning the type of application or technology you want to use (e.g., web app, CLI tool, Python script)."]
       else []) ++
      (if (pySplitWs input_lower).length < 5 then
        ["Provide more details about the functionality you want to implement."] else [])
    { is_valid := true, warnings := warnings, suggestions := suggestions }

/-! ## Helper lemmas on the normalization functions -/

/-- Computation: the heuristic score of text feedback. -/
lemma parse_text_quality_eq (s : String) (n : Nat) (name : String) :
    (parse_text_feedback s n name).quality_score =
      max 0 (min 100 (70 + (countMatches (pyLower s) positive_keywords : ℚ) * 5 -
        (countMatches (pyLower s) negative_keywords : ℚ) * 10)) := rfl

/-- Computation: the suggestions of text feedback. -/
lemma parse_text_suggestions_eq (s : String) (n : Nat) (name : String) :
    (parse_text_feedback s n name).suggestions =
      (((s.splitOn "\n").filter
          (fun line => suggestion_keywords.any (fun w => strContains (pyLower line) w))).map
        pyStrip).take 5 := rfl

/-- The heuristic score is clamped to `[0, 100]`. -/
lemma parse_text_quality_bounds (s : String) (n : Nat) (name : String) :
    0 ≤ (parse_text_feedback s n name).quality_score ∧
      (parse_text_feedback s n name).quality_score ≤ 100 := by
  rw [parse_text_quality_eq]
  exact ⟨le_max_left 0 _, max_le (by norm_num) (min_le_left _ _)⟩

/-- All six sub-metric scores of text feedback lie in `[0, 100]`. -/
lemma parse_text_metrics_bounds (s : String) (n : Nat) (name : String) :
    0 ≤ (parse_text_feedback s n name).quality_metrics.complexity_score ∧
      (parse_text_feedback s n name).quality_metrics.complexity_score ≤ 100 ∧
      0 ≤ (parse_text_feedback s n name).quality_metrics.test_coverage ∧
      (parse_text_feedback s n name).quality_metrics.test_coverage ≤ 100 := by
  obtain ⟨h0, h100⟩ := parse_text_quality_bounds s n name
  have hcc : (parse_text_feedback s n name).quality_metrics.complexity_score =
      (parse_text_feedback s n name).quality_score := rfl
  have hcov : (parse_text_feedback s n name).quality_metrics.test_coverage =
      max 0 ((parse_text_feedback s n name).quality_score - 20) := rfl
  rw [hcc, hcov]
  exact ⟨h0, h100, le_max_left 0 _, max_le (by norm_num) (by linarith)⟩

/-- The six sub-metrics of text feedback in terms of its quality score. -/
lemma parse_text_metrics_eq (s : String) (n : Nat) (name : String) :
    (parse_text_feedback s n name).quality_metrics =
      { complexity_score := (parse_text_feedback s n name).quality_score
        maintainability_score := (parse_text_feedback s n name).quality_score
        readability_score := (parse_text_feedback s n name).quality_score
        test_coverage := max 0 ((parse_text_feedback s n name).quality_score - 20)
        performance_score := (parse_text_feedback s n name).quality_score
        security_score := (parse_text_feedback s n name).quality_score } := rfl

/-! ## C10 -/

/-- C10: for every string input, `validate_input` returns `is_valid = false`
iff the input is empty or whitespace-only (then with the single warning
"Input cannot be empty"); every other input yields `is_valid = true`, the
later warning/suggestion logic never changing validity. -/
theorem C10_validate_input_validity (s : String) :
    ((validate_input s).is_valid = false ↔ (pyStrip s).isEmpty = true) ∧
    ((pyStrip s).isEmpty = true →
      validate_input s =
        { is_valid := false, warnings := ["Input cannot be empty"], suggestions := [] }) := by
  have hcond : (s.isEmpty || (pyStrip s).isEmpty) = (pyStrip s).isEmpty := by
    cases hs : s.isEmpty
    · rfl
    · have hs' : s = "" := (String.isEmpty_iff s).mp hs
      subst hs'
      rfl
  unfold validate_input
  rw [hcond]
  cases h : (pyStrip s).isEmpty <;> simp [h]

/-! ## C7 -/

/-- C7: for every free-form text evaluator output, `_parse_text_feedback`
returns (without raising: it is a total function) a feedback whose quality
score is 70 plus 5 per positive-sentiment keyword matched minus 10 per
negative-sentiment keyword matched, clamped to [0,100]; whose suggestions
are at most 5 stripped lines of the input containing suggestion-indicating
keywords; and whose six sub-metrics all equal the derived score except
test-coverage, which is the derived score minus 20 floored at 0. -/
theorem C7_parse_text_feedback_spec (s : String) (n : Nat) (name : String) :
    (parse_text_feedback s n name).quality_score =
      max 0 (min 100 (70 + (countMatches (pyLower s) positive_keywords : ℚ) * 5 -
        (countMatches (pyLower s) negative_keywords : ℚ) * 10)) ∧
    0 ≤ (parse_text_feedback s n name).quality_score ∧
    (parse_text_feedback s n name).quality_score ≤ 100 ∧
    (parse_text_feedback s n name).suggestions.length ≤ 5 ∧
    (∀ sug ∈ (parse_text_feedback s n name).suggestions,
      ∃ line, line ∈ s.splitOn "\n" ∧
        (suggestion_keywords.any (fun w => strContains (pyLower line) w)) = true ∧
        sug = pyStrip line) ∧
    (parse_text_feedback s n name).quality_metrics =
      { complexity_score := (parse_text_feedback s n name).quality_score
        maintainability_score := (parse_text_feedback s n name).quality_score
        readability_score := (parse_text_feedback s n name).quality_score
        test_coverage := max 0 ((parse_text_feedback s n name).quality_score - 20)
        performance_score := (parse_text_feedback s n name).quality_score
        security_score := (parse_text_feedback s n name).quality_score } := by
  obtain ⟨h0, h100⟩ := parse_text_quality_bounds s n name
  refine ⟨parse_text_quality_eq s n name, h0, h100, ?_, ?_, parse_text_metrics_eq s n name⟩
  · rw [parse_text_suggestions_eq]
    exact List.length_take_le 5 _
  · intro sug hsug
    rw [parse_text_suggestions_eq] at hsug
    obtain ⟨line, hline, hmap⟩ := List.mem_map.mp (List.mem_of_mem_take hsug)
    obtain ⟨hmem, hp⟩ := List.mem_filter.mp hline
    exact ⟨line, hmem, hp, hmap.symm⟩

/-! ## C5 -/

/-- The six sub-metric scores as a list. -/
def sixMetricScores (m : QualityMetrics) : List ℚ :=
  [m.complexity_score, m.maintainability_score, m.readability_score,
   m.test_coverage, m.performance_score, m.security_score]

/-- The evaluator-output shapes whose numeric scores `_parse_evaluator_output`
passes through without clamping: a `StructuredFeedback` object, or a dict
with a `quality_score` key whose `quality_metrics` entry is absent or a
dict. -/
def parse_passes_through : PyVal → Bool
  | .feedback _ => true
  | .dict entries =>
      dictContains entries "quality_score" &&
        (match dictLookup entries "quality_metrics" with
         | some (.dict _) => true
         | none => true
         | some _ => false)
  | _ => false

/-- Computation: a dict without a `quality_score` key takes the text path. -/
lemma parse_eval_dict_no_qs (entries : List (String × PyVal)) (n : Nat) (name : String)
    (h : dictContains entries "quality_score" = false) :
    parse_evaluator_output (.dict entries) n name =
      parse_text_feedback (pyStr (.dict entries)) n name := by
  show parse_dict_feedback entries n name = _
  unfold parse_dict_feedback
  rw [h]
  simp

/-- Computation: a dict with a `quality_score` key and a non-dict
`quality_metrics` entry takes the fallback path. -/
lemma parse_eval_dict_malformed (entries : List (String × PyVal)) (n : Nat) (name : String)
    (w : PyVal) (hqs : dictContains entries "quality_score" = true)
    (hlk : dictLookup entries "quality_metrics" = some w) (hnd : ∀ m, w ≠ .dict m) :
    parse_evaluator_output (.dict entries) n name = fallbackFeedback n name := by
  show parse_dict_feedback entries n name = _
  unfold parse_dict_feedback
  rw [hqs]
  simp only [if_true]
  unfold parse_qs_dict
  rw [hlk]
  cases w with
  | dict m => exact absurd rfl (hnd m)
  | str s => simp
  | num q => simp
  | bool b => simp
  | pyNone => simp
  | list l => simp
  | feedback f => simp
  | formattedFeedback f => simp

/-- All scores of text-path feedback lie in [0,100]. -/
lemma text_path_in_range (s : String) (n : Nat) (name : String) :
    0 ≤ (parse_text_feedback s n name).quality_score ∧
    (parse_text_feedback s n name).quality_score ≤ 100 ∧
    ∀ m ∈ sixMetricScores (parse_text_feedback s n name).quality_metrics, 0 ≤ m ∧ m ≤ 100 := by
  obtain ⟨h0, h100⟩ := parse_text_quality_bounds s n name
  obtain ⟨_, _, hc0, hc100⟩ := parse_text_metrics_bounds s n name
  refine ⟨h0, h100, ?_⟩
  intro m hm
  rw [parse_text_metrics_eq] at hm
  simp only [sixMetricScores, List.mem_cons, List.not_mem_nil, or_false] at hm
  rcases hm with h | h | h | h | h | h <;> subst h
  · exact ⟨h0, h100⟩
  · exact ⟨h0, h100⟩
  · exact ⟨h0, h100⟩
  · exact ⟨le_max_left 0 _, max_le (by norm_num) (by linarith)⟩
  · exact ⟨h0, h100⟩
  · exact ⟨h0, h100⟩

/-- All scores of the fallback feedback lie in [0,100]. -/
lemma fallback_in_range (n : Nat) (name : String) :
    0 ≤ (fallbackFeedback n name).quality_score ∧
    (fallbackFeedback n name).quality_score ≤ 100 ∧
    ∀ m ∈ sixMetricScores (fallbackFeedback n name).quality_metrics, 0 ≤ m ∧ m ≤ 100 := by
  refine ⟨by norm_num [fallbackFeedback], by norm_num [fallbackFeedback], ?_⟩
  intro m hm
  simp only [fallbackFeedback, sixMetricScores, List.mem_cons, List.not_mem_nil, or_false] at hm
  rcases hm with h | h | h | h | h | h <;> subst h <;> norm_num

/-- C5 counterexample: a dict evaluator output with `quality_score = 150` is
normalized to a feedback whose quality score is 150, outside [0,100] — the
dict path performs no clamping. -/
theorem C5_counterexample_unclamped_dict :
    ¬ (0 ≤ (parse_evaluator_output (.dict [("quality_score", .num 150)]) 1 "evaluator").quality_score ∧
       (parse_evaluator_output (.dict [("quality_score", .num 150)]) 1 "evaluator").quality_score ≤ 100) := by
  decide

/-- C5 amended: normalization is total (never raises) for every output
shape, and for every output off the pass-through paths (free-form text of
any shape, and malformed dicts absorbed by the fallback) the quality score
and all six sub-metric scores lie within [0,100]; structured-feedback
objects and well-formed score dicts have their numeric scores passed
through unclamped. -/
theorem C5_amended_normalization_range (v : PyVal) (n : Nat) (name : String)
    (h : parse_passes_through v = false) :
    0 ≤ (parse_evaluator_output v n name).quality_score ∧
    (parse_evaluator_output v n name).quality_score ≤ 100 ∧
    ∀ m ∈ sixMetricScores (parse_evaluator_output v n name).quality_metrics, 0 ≤ m ∧ m ≤ 100 := by
  cases v with
  | str s => exact text_path_in_range s n name
  | num q => exact text_path_in_range _ n name
  | bool b => exact text_path_in_range _ n name
  | pyNone => exact text_path_in_range _ n name
  | list l => exact text_path_in_range _ n name
  | formattedFeedback f => exact text_path_in_range _ n name
  | feedback f => exact absurd h (by simp [parse_passes_through])
  | dict entries =>
    cases hqs : dictContains entries "quality_score" with
    | false =>
        rw [parse_eval_dict_no_qs entries n name hqs]
        exact text_path_in_range _ n name
    | true =>
        simp only [parse_passes_through, hqs, Bool.true_and] at h
        cases hlk : dictLookup entries "quality_metrics" with
        | none => rw [hlk] at h; simp at h
        | some w =>
            rw [hlk] at h
            have hnd : ∀ m, w ≠ .dict m := by
              intro m hw
              subst hw
              simp at h
            rw [parse_eval_dict_malformed entries n name w hqs hlk hnd]
            exact fallback_in_range n name

/-- C5 amended witness at a concrete free-form text output. -/
theorem C5_amended_witness :
    parse_passes_through (.str "needs cleanup") = false ∧
    (0 ≤ (parse_evaluator_output (.str "needs cleanup") 1 "rev").quality_score ∧
     (parse_evaluator_output (.str "needs cleanup") 1 "rev").quality_score ≤ 100 ∧
     ∀ m ∈ sixMetricScores (parse_evaluator_output (.str "needs cleanup") 1 "rev").quality_metrics,
       0 ≤ m ∧ m ≤ 100) :=
  ⟨rfl, C5_amended_normalization_range (.str "needs cleanup") 1 "rev" rfl⟩

/-! ## Helper lemmas on the iterative loop -/

/-- The loop only appends to the list of recorded iterations. -/
lemma execute_iterations_prefix (env : IterEnv) (imp ev : String) (init : PyVal)
    (qt : ℚ) (mi : Nat) :
    ∀ (remaining iteration : Nat) (st : LoopState), ∃ tail,
      (execute_iterations env imp ev init qt mi iteration remaining st).iterations =
        st.iterations ++ tail := by
  intro remaining
  induction remaining with
  | zero =>
      intro iteration st
      exact ⟨[], by rw [execute_iterations]; simp⟩
  | succ r ih =>
      intro iteration st
      cases henv : env iteration with
      | mk ir er =>
        rw [execute_iterations, henv]
        cases ir with
        | err msg t => exact ⟨_, rfl⟩
        | ok out t =>
          cases er with
          | err msg t2 => exact ⟨_, rfl⟩
          | ok eout t2 =>
            dsimp only
            by_cases hm : (parse_evaluator_output eout iteration ev).meets_threshold qt = true
            · rw [if_pos hm]
              exact ⟨_, rfl⟩
            · rw [if_neg hm]
              set ST2 := (if iteration < mi then _ else _) with hST2
              obtain ⟨tail, htail⟩ := ih (iteration + 1) ST2
              have h2 : ∃ R, ST2.iterations = st.iterations ++ [R] := by
                rw [hST2]
                by_cases hc : iteration < mi
                · exact ⟨_, by rw [if_pos hc]⟩
                · exact ⟨_, by rw [if_neg hc]⟩
              obtain ⟨R, hR⟩ := h2
              exact ⟨R :: tail, by rw [htail, hR]; simp⟩

/-- The loop records at most `remaining` further iterations. -/
lemma execute_iterations_length_le (env : IterEnv) (imp ev : String) (init : PyVal)
    (qt : ℚ) (mi : Nat) :
    ∀ (remaining iteration : Nat) (st : LoopState),
      (execute_iterations env imp ev init qt mi iteration remaining st).iterations.length ≤
        st.iterations.length + remaining := by
  intro remaining
  induction remaining with
  | zero =>
      intro iteration st
      rw [execute_iterations]
      simp
  | succ r ih =>
      intro iteration st
      cases henv : env iteration with
      | mk ir er =>
        rw [execute_iterations, henv]
        cases ir with
        | err msg t => simp
        | ok out t =>
          cases er with
          | err msg t2 => simp
          | ok eout t2 =>
            dsimp only
            by_cases hm : (parse_evaluator_output eout iteration ev).meets_threshold qt = true
            · rw [if_pos hm]
              simp
            · rw [if_neg hm]
              set ST2 := (if iteration < mi then _ else _) with hST2
              have h2 : ∃ R, ST2.iterations = st.iterations ++ [R] := by
                rw [hST2]
                by_cases hc : iteration < mi
                · exact ⟨_, by rw [if_pos hc]⟩
                · exact ⟨_, by rw [if_neg hc]⟩
              obtain ⟨R, hR⟩ := h2
              have h3 := ih (iteration + 1) ST2
              rw [hR] at h3
              simp only [List.length_append, List.length_cons, List.length_nil] at h3 ⊢
              omega

/-- When every remaining iteration has both agent calls succeed and a
normalized score below the threshold, the loop runs out its full range. -/
lemma execute_iterations_all_below (env : IterEnv) (imp ev : String) (init : PyVal)
    (qt : ℚ) (mi : Nat) :
    ∀ (remaining iteration : Nat) (st : LoopState),
      (∀ i, iteration ≤ i → i < iteration + remaining →
        ∃ io eo t1 t2, env i = (.ok io t1, .ok eo t2) ∧
          (parse_evaluator_output eo i ev).quality_score < qt) →
      st.threshold_met = false →
      (execute_iterations env imp ev init qt mi iteration remaining st).iterations.length =
          st.iterations.length + remaining ∧
        (execute_iterations env imp ev init qt mi iteration remaining st).threshold_met = false := by
  intro remaining
  induction remaining with
  | zero =>
      intro iteration st _ hst
      rw [execute_iterations]
      simpa using hst
  | succ r ih =>
      intro iteration st hall hst
      obtain ⟨io, eo, t1, t2, henv, hlt⟩ := hall iteration (le_refl _) (by omega)
      rw [execute_iterations, henv]
      dsimp only
      have hm : (parse_evaluator_output eo iteration ev).meets_threshold qt = false := by
        unfold StructuredFeedback.meets_threshold
        exact decide_eq_false (not_le.mpr hlt)
      rw [if_neg (by rw [hm]; exact Bool.false_ne_true)]
      set ST2 := (if iteration < mi then _ else _) with hST2
      have h2 : ∃ R, ST2.iterations = st.iterations ++ [R] ∧ ST2.threshold_met = false := by
        rw [hST2]
        by_cases hc : iteration < mi
        · exact ⟨_, by rw [if_pos hc], by rw [if_pos hc]; exact hst⟩
        · exact ⟨_, by rw [if_neg hc], by rw [if_neg hc]; exact hst⟩
      obtain ⟨R, hR, hRmet⟩ := h2
      have h3 := ih (iteration + 1) ST2 (by
        intro i hi1 hi2
        exact hall i (by omega) (by omega)) hRmet
      rw [hR] at h3
      obtain ⟨h3len, h3met⟩ := h3
      constructor
      · rw [h3len]
        simp only [List.length_append, List.length_cons, List.length_nil]
        omega
      · exact h3met

/-! ## C1 -/

/-- C1: for every quality threshold in [0,100] and every loop execution whose
first iteration's improver and evaluator calls succeed with a first
normalized feedback score at or above the threshold,
`execute_iterative_loop` stops after iteration 1, records exactly one
IterationResult, and returns `threshold_met = true` with
`final_quality_score` equal to that first score. -/
theorem C1_first_score_meets_threshold (ln imp ev : String) (env : IterEnv)
    (init imp_out eval_out : PyVal) (t1 t2 : ℚ) (mi : Nat) (qt : ℚ)
    (hmax : 1 ≤ mi) (_hthr0 : 0 ≤ qt) (_hthr1 : qt ≤ 100)
    (henv : env 1 = (.ok imp_out t1, .ok eval_out t2))
    (hscore : qt ≤ (parse_evaluator_output eval_out 1 ev).quality_score) :
    (execute_iterative_loop ln env imp ev init mi qt).total_iterations = 1 ∧
    (execute_iterative_loop ln env imp ev init mi qt).iterations.length = 1 ∧
    (execute_iterative_loop ln env imp ev init mi qt).threshold_met = true ∧
    (execute_iterative_loop ln env imp ev init mi qt).final_quality_score =
      (parse_evaluator_output eval_out 1 ev).quality_score := by
  obtain ⟨k, rfl⟩ : ∃ k, mi = k + 1 := ⟨mi - 1, by omega⟩
  have hm : (parse_evaluator_output eval_out 1 ev).meets_threshold qt = true := by
    unfold StructuredFeedback.meets_threshold
    exact decide_eq_true hscore
  have hrun : execute_iterations env imp ev init qt (k + 1) 1 (k + 1) (loop_start init) =
      { iterations := [{ iteration_number := 1
                         agent_type := imp ++ "+" ++ ev
                         input_data := init
                         output_data := some imp_out
                         feedback := some (parse_evaluator_output eval_out 1 ev)
                         execution_time := t1 + t2
                         success := true }]
        improvement_trend := [(parse_evaluator_output eval_out 1 ev).quality_score]
        current_input := init
        final_output := some imp_out
        final_quality_score := (parse_evaluator_output eval_out 1 ev).quality_score
        threshold_met := true } := by
    rw [execute_iterations, henv]
    dsimp only
    rw [if_pos hm]
    rfl
  unfold execute_iterative_loop
  rw [hrun]
  exact ⟨rfl, rfl, rfl, rfl⟩

/-- Environment used by loop witnesses: the improver always succeeds and the
evaluator always returns a structured dict scoring 90. -/
def loop_env_90 : IterEnv :=
  fun _ => (.ok (.str "code") 0, .ok (.dict [("quality_score", .num 90)]) 0)

/-- C1 witness: threshold 85, first score 90 — the loop stops at once. -/
theorem C1_witness :
    (1 ≤ 3 ∧ (0 : ℚ) ≤ 85 ∧ (85 : ℚ) ≤ 100) ∧
    (execute_iterative_loop "w" loop_env_90 "imp" "ev" (.str "req") 3 85).total_iterations = 1 ∧
    (execute_iterative_loop "w" loop_env_90 "imp" "ev" (.str "req") 3 85).iterations.length = 1 ∧
    (execute_iterative_loop "w" loop_env_90 "imp" "ev" (.str "req") 3 85).threshold_met = true ∧
    (execute_iterative_loop "w" loop_env_90 "imp" "ev" (.str "req") 3 85).final_quality_score =
      (parse_evaluator_output (.dict [("quality_score", .num 90)]) 1 "ev").quality_score :=
  ⟨⟨by norm_num, by norm_num, by norm_num⟩,
    C1_first_score_meets_threshold "w" "imp" "ev" loop_env_90 (.str "req") (.str "code")
      (.dict [("quality_score", .num 90)]) 0 0 3 85 (by norm_num) (by norm_num) (by norm_num)
      rfl (by decide)⟩

/-! ## C2 -/

/-- C2: if every agent invocation succeeds and no normalized score reaches
the threshold, the loop records exactly `max_iterations` IterationResults
with `threshold_met = false`; and in every execution whatsoever (agent
failures and timeouts included) the recorded count never exceeds
`max_iterations`. -/
theorem C2_iteration_count_bounds (ln imp ev : String) (env : IterEnv)
    (init : PyVal) (mi : Nat) (qt : ℚ) :
    ((∀ i, 1 ≤ i → i ≤ mi →
        ∃ io eo t1 t2, env i = (.ok io t1, .ok eo t2) ∧
          (parse_evaluator_output eo i ev).quality_score < qt) →
      (execute_iterative_loop ln env imp ev init mi qt).total_iterations = mi ∧
      (execute_iterative_loop ln env imp ev init mi qt).threshold_met = false) ∧
    (execute_iterative_loop ln env imp ev init mi qt).iterations.length ≤ mi := by
  constructor
  · intro hall
    have h := execute_iterations_all_below env imp ev init qt mi mi 1 (loop_start init)
      (by intro i hi1 hi2; exact hall i hi1 (by omega)) rfl
    unfold execute_iterative_loop
    dsimp only
    constructor
    · rw [h.1]
      simp [loop_start]
    · exact h.2
  · have h := execute_iterations_length_le env imp ev init qt mi mi 1 (loop_start init)
    unfold execute_iterative_loop
    dsimp only
    simpa [loop_start] using h

/-- Environment used by the C2 witness: both calls succeed every iteration,
the evaluator scoring a constant 10. -/
def loop_env_10 : IterEnv :=
  fun _ => (.ok (.str "code") 0, .ok (.dict [("quality_score", .num 10)]) 0)

/-- C2 witness: threshold 85 never reached in 2 iterations. -/
theorem C2_witness :
    ((execute_iterative_loop "w" loop_env_10 "imp" "ev" (.str "req") 2 85).total_iterations = 2 ∧
     (execute_iterative_loop "w" loop_env_10 "imp" "ev" (.str "req") 2 85).threshold_met = false) ∧
    (execute_iterative_loop "w" loop_env_10 "imp" "ev" (.str "req") 2 85).iterations.length ≤ 2 := by
  have h := C2_iteration_count_bounds "w" "imp" "ev" loop_env_10 (.str "req") 2 85
  refine ⟨h.1 ?_, h.2⟩
  intro i _ _
  refine ⟨.str "code", .dict [("quality_score", .num 10)], 0, 0, rfl, ?_⟩
  have hq : (parse_evaluator_output (.dict [("quality_score", .num 10)]) i "ev").quality_score =
      10 := rfl
  rw [hq]
  norm_num

/-! ## C6 -/

/-- C6 counterexample: a dict whose `quality_metrics` entry is not a dict
makes parsing raise internally, and the fallback feedback it is absorbed
into sets `test_coverage` to 0, not 50 as the claim states for all six
sub-metrics. -/
theorem C6_counterexample_coverage_not_50 :
    parse_evaluator_output
        (.dict [("quality_score", .num 90), ("quality_metrics", .str "not a dict")]) 3 "reviewer" =
      fallbackFeedback 3 "reviewer" ∧
    (parse_evaluator_output
        (.dict [("quality_score", .num 90), ("quality_metrics", .str "not a dict")]) 3
        "reviewer").quality_metrics.test_coverage ≠ 50 := by
  exact ⟨rfl, by decide⟩

/-- C6 amended: for every evaluator output whose normalization raises
internally (a dict carrying `quality_score` whose `quality_metrics` entry is
present but not a dict), `_parse_evaluator_output` returns the fixed neutral
feedback: quality score 50, sub-metrics 50 except `test_coverage` 0, and
exactly one suggestion noting the parse failure; and an iteration whose two
agent calls succeeded is still recorded with `success = true` whatever the
evaluator output was — normalization never fails the step. -/
theorem C6_amended_neutral_fallback (entries : List (String × PyVal)) (w : PyVal)
    (n : Nat) (name : String)
    (hqs : dictContains entries "quality_score" = true)
    (hlk : dictLookup entries "quality_metrics" = some w)
    (hnd : ∀ m, w ≠ .dict m) :
    parse_evaluator_output (.dict entries) n name = fallbackFeedback n name ∧
    (fallbackFeedback n name).quality_score = 50 ∧
    (fallbackFeedback n name).quality_metrics.complexity_score = 50 ∧
    (fallbackFeedback n name).quality_metrics.maintainability_score = 50 ∧
    (fallbackFeedback n name).quality_metrics.readability_score = 50 ∧
    (fallbackFeedback n name).quality_metrics.performance_score = 50 ∧
    (fallbackFeedback n name).quality_metrics.security_score = 50 ∧
    (fallbackFeedback n name).quality_metrics.test_coverage = 0 ∧
    (fallbackFeedback n name).suggestions = ["Unable to parse detailed feedback"] ∧
    (∀ (ln imp ev : String) (env : IterEnv) (init out : PyVal) (t1 t2 : ℚ)
       (mi : Nat) (qt : ℚ),
      env 1 = (.ok out t1, .ok (.dict entries) t2) →
      ((execute_iterative_loop ln env imp ev init (mi + 1) qt).iterations.head?).map
          (fun ir => ir.success) = some true) := by
  refine ⟨parse_eval_dict_malformed entries n name w hqs hlk hnd,
    rfl, rfl, rfl, rfl, rfl, rfl, rfl, rfl, ?_⟩
  intro ln imp ev env init out t1 t2 mi qt henv
  unfold execute_iterative_loop
  dsimp only
  rw [execute_iterations, henv]
  dsimp only
  by_cases hm : (parse_evaluator_output (.dict entries) 1 ev).meets_threshold qt = true
  · rw [if_pos hm]
    rfl
  · rw [if_neg hm]
    set ST2 := (if 1 < mi + 1 then _ else _) with hST2
    obtain ⟨tail, htail⟩ :=
      execute_iterations_prefix env imp ev init qt (mi + 1) mi 2 ST2
    rw [htail]
    have h2 : ST2.iterations =
        [{ iteration_number := 1
           agent_type := imp ++ "+" ++ ev
           input_data := init
           output_data := some out
           feedback := some (parse_evaluator_output (.dict entries) 1 ev)
           execution_time := t1 + t2
           success := true }] := by
      rw [hST2]
      by_cases hc : 1 < mi + 1
      · rw [if_pos hc]
        simp [loop_start]
      · rw [if_neg hc]
        simp [loop_start]
    rw [h2]
    simp

/-- Environment used by the C6 witness: the evaluator returns a malformed
dict every iteration. -/
def c6_env : IterEnv :=
  fun _ => (.ok (.str "code") 0,
    .ok (.dict [("quality_score", .num 90), ("quality_metrics", .str "not a dict")]) 0)

/-- C6 witness at a concrete malformed evaluator dict. -/
theorem C6_witness :
    parse_evaluator_output
        (.dict [("quality_score", .num 90), ("quality_metrics", .str "not a dict")]) 3 "reviewer" =
      fallbackFeedback 3 "reviewer" ∧
    (fallbackFeedback 3 "reviewer").quality_metrics.test_coverage = 0 ∧
    ((execute_iterative_loop "w" c6_env "imp" "ev" (.str "req") 3 85).iterations.head?).map
        (fun ir => ir.success) = some true := by
  have h := C6_amended_neutral_fallback
    [("quality_score", .num 90), ("quality_metrics", .str "not a dict")]
    (.str "not a dict") 3 "reviewer" rfl rfl (fun m hm => nomatch hm)
  exact ⟨h.1, h.2.2.2.2.2.2.2.1,
    h.2.2.2.2.2.2.2.2.2 "w" "imp" "ev" c6_env (.str "req") (.str "code") 0 0 2 85 rfl⟩

/-! ## C9 -/

/-- A behavior with no agents, used where the pipeline never reaches one. -/
def null_behavior : AgentBehavior :=
  { active_agents := []
    process := fun _ _ => .error "unused"
    loop_env := fun _ _ => (.err "unused" 0, .err "unused" 0) }

/-- A manager state with no configuration-derived progress. -/
def empty_manager_state : ManagerState :=
  { progress :=
      { total_steps := 0, completed_steps := 0, failed_steps := 0,
        progress_percentage := 0, steps := [], is_running := false,
        is_completed := false, has_failures := false }
    trace := [] }

/-- C9 counterexample: calling `execute_pipeline` with no configuration
loaded raises the not-initialized `ValueError` out of the call (modelled as
`Except.error`), so no `success = false` result dict is returned — the
failure is an uncaught exception, not a failed result. -/
theorem C9_counterexample_uncaught_exception :
    execute_pipeline none null_behavior (.str "build an app") empty_manager_state =
      .error "No pipeline configuration loaded. Call initialize_pipeline() first." ∧
    (execute_pipeline none null_behavior (.str "build an app") empty_manager_state).toOption =
      none :=
  ⟨rfl, rfl⟩

/-- C9 amended: for every call to `execute_pipeline` made while no pipeline
configuration is loaded, the call raises the not-initialized `ValueError`
("No pipeline configuration loaded. Call initialize_pipeline() first."),
and the exception propagates to the caller — it is raised before the `try`
block, so it is never converted into a `success = false` result. -/
theorem C9_amended_not_initialized_raises (beh : AgentBehavior) (input_data : PyVal)
    (st : ManagerState) :
    execute_pipeline none beh input_data st =
      .error "No pipeline configuration loaded. Call initialize_pipeline() first." :=
  rfl

/-! ## C4 -/

/-- The spec's example pipeline: `A` required, `B` optional, `C` required,
sequential waves. -/
def c4_cfg : PipelineConfig :=
  { name := "p"
    steps := [{ agent_type := "A", optional := false },
              { agent_type := "B", optional := true },
              { agent_type := "C", optional := false }]
    execution_order := [["A"], ["B"], ["C"]] }

/-- Behavior for the C4 counterexample: `A` yields `outA`, `B` raises, `C`
echoes its input (so its recorded result shows what it received). -/
def c4_beh : AgentBehavior :=
  { active_agents := ["A", "B", "C"]
    process := fun n v =>
      if n == "B" then .error "boom" else if n == "A" then .ok (.str "outA") else .ok v
    loop_env := fun _ _ => (.err "unused" 0, .err "unused" 0) }

/-- C4 counterexample: with `B` optional and failing, the run reaches `C`
and succeeds, but `C` receives `B`'s error payload as its input (the echoed
result of `C` is the payload), not the prior successful step `A`'s output
`outA`. -/
theorem C4_counterexample_payload_not_prior_output :
    ((execute_pipeline (some c4_cfg) c4_beh (.str "req") (init_manager_state c4_cfg)).toOption.map
        (fun r => (r.1.success,
          r.1.results.map (fun res => (dictLookup res "B", dictLookup res "C"))))) =
      some (true, some
        (some (.dict [("error", .str "boom"), ("optional", .bool true)]),
         some (.dict [("error", .str "boom"), ("optional", .bool true)]))) ∧
    (PyVal.dict [("error", .str "boom"), ("optional", .bool true)]) ≠ .str "outA" := by
  constructor
  · rfl
  · intro h
    cases h

/-- C4 amended: for every run of the example pipeline `[A required,
B optional, C required]` (sequential waves) in which `A` succeeds with some
output, `B`'s agent raises, and `C` echoes its input, the pipeline still
runs `C`, returns `success = true` with `B`'s error payload (error string
plus `optional = true`) recorded in the result map — but the wave after the
failed optional step receives that error payload as its input, not the
prior successful step's output: `C`'s echoed result is the payload. -/
theorem C4_amended_optional_failure_continues (beh : AgentBehavior) (input vA : PyVal)
    (e : String)
    (hact : beh.active_agents = ["A", "B", "C"])
    (hA : beh.process "A" input = .ok vA)
    (hB : beh.process "B" vA = .error e)
    (hC : ∀ x, beh.process "C" x = .ok x) :
    ∃ fin : ManagerState,
      execute_pipeline (some c4_cfg) beh input (init_manager_state c4_cfg) =
        .ok ({ success := true
               results := some [("A", vA),
                 ("B", .dict [("error", .str e), ("optional", .bool true)]),
                 ("C", .dict [("error", .str e), ("optional", .bool true)])]
               error := none
               pipeline_name := "p" }, fin) := by
  simp [execute_pipeline, PipelineConfig.get_execution_order, c4_cfg, run_waves,
    execute_step_group, execute_single_step, PipelineConfig.get_step, List.find?,
    StepConfig.is_iterative, hact, hA, hB, hC, dict_update, dictLookup, List.foldl]

/-- C4 witness at the concrete example behavior. -/
theorem C4_witness :
    ∃ fin : ManagerState,
      execute_pipeline (some c4_cfg) c4_beh (.str "req") (init_manager_state c4_cfg) =
        .ok ({ success := true
               results := some [("A", .str "outA"),
                 ("B", .dict [("error", .str "boom"), ("optional", .bool true)]),
                 ("C", .dict [("error", .str "boom"), ("optional", .bool true)])]
               error := none
               pipeline_name := "p" }, fin) :=
  C4_amended_optional_failure_continues c4_beh (.str "req") (.str "outA") "boom"
    rfl rfl rfl (fun _ => rfl)

/-! ## Step-status machinery for the halting property -/

/-- Status of a step as shown in the progress snapshot. -/
def step_status (p : ProgressData) (n : String) : Option String :=
  (p.steps.find? (fun s => s.agent_type == n)).map (fun s => s.status)

/-- The manager state carried by either outcome of a single step. -/
def single_state (x : Except (String × ManagerState) (PyVal × ManagerState)) : ManagerState :=
  match x with
  | .ok (_, st) => st
  | .error (_, st) => st

/-- The manager state carried by either outcome of a step group. -/
def group_state (x : Except (String × ManagerState) (List (String × PyVal) × ManagerState)) :
    ManagerState :=
  match x with
  | .ok (_, st) => st
  | .error (_, st) => st

/-- The manager state carried by either outcome of the wave loop. -/
def waves_state (x : Except (String × ManagerState)
    (PyVal × List (String × PyVal) × ManagerState)) : ManagerState :=
  match x with
  | .ok (_, _, st) => st
  | .error (_, st) => st

/-- `_update_step_progress` leaves every other step's entry alone. -/
lemma find?_update_first_step (l : List StepProgress) (m status : String) (pct : Nat)
    (n : String) (h : n ≠ m) :
    (update_first_step l m status pct).find? (fun s => s.agent_type == n) =
      l.find? (fun s => s.agent_type == n) := by
  induction l with
  | nil => rfl
  | cons s rest ih =>
    by_cases hm : s.agent_type == m
    · have hsm : s.agent_type = m := by simpa using hm
      have hsn : (s.agent_type == n) = false := by
        simp [hsm]
        exact fun hc => h hc.symm
      rw [update_first_step]
      rw [if_pos hm]
      rw [List.find?]
      rw [List.find?]
      simp [hsn]
    · have hm' : (s.agent_type == m) = false := by simpa using hm
      rw [update_first_step]
      rw [if_neg (by simp [hm'])]
      rw [List.find?, List.find?]
      by_cases hsn : (s.agent_type == n) = true
      · simp [hsn]
      · simp only [Bool.not_eq_true] at hsn
        simp [hsn, ih]

/-- Step-status is unchanged by `_update_step_progress` on another step. -/
lemma step_status_update_other (p : ProgressData) (m status : String) (pct : Nat)
    (n : String) (h : n ≠ m) :
    step_status (update_step_progress p m status pct) n = step_status p n := by
  unfold step_status update_step_progress
  rw [find?_update_first_step p.steps m status pct n h]

/-- `observe` does not change the current progress. -/
lemma observe_progress (st : ManagerState) : (observe st).progress = st.progress := rfl

/-- `_update_overall_progress` does not touch per-step statuses. -/
lemma step_status_update_overall (p : ProgressData) (n : String) :
    step_status (update_overall_progress p) n = step_status p n := rfl

/-- An iterative step only touches its own step's status. -/
lemma iterative_status_other (beh : AgentBehavior) (sc : StepConfig) (input : PyVal)
    (st : ManagerState) (n : String) (h : n ≠ sc.agent_type) :
    step_status (single_state (execute_iterative_step beh sc input st)).progress n =
      step_status st.progress n := by
  have hfind : ∀ (l : List StepProgress) (status : String) (pct : Nat),
      (update_first_step l sc.agent_type status pct).find? (fun s2 => s2.agent_type == n) =
        l.find? (fun s2 => s2.agent_type == n) :=
    fun l status pct => find?_update_first_step l sc.agent_type status pct n h
  unfold execute_iterative_step
  split
  · rfl
  next ic hic =>
    split
    · split
      · set LR := execute_iterative_loop sc.agent_type (beh.loop_env sc.agent_type)
          ic.improver_agent ic.evaluator_agent input ic.max_iterations ic.quality_threshold
          with hLR
        by_cases h3 : (LR.threshold_met || LR.final_output.isSome) = true
        · rw [if_pos h3]
          simp [single_state, observe, step_status, update_step_progress,
            update_overall_progress, hfind]
        · rw [if_neg h3]
          by_cases h4 : sc.optional = true
          · rw [if_pos h4]
            simp [single_state, observe, step_status, update_step_progress,
              update_overall_progress, hfind]
          · rw [if_neg h4]
            simp [single_state, observe, step_status, update_step_progress,
              update_overall_progress, hfind]
      · rfl
    · rfl

/-- A regular or iterative step only touches its own status entry. -/
lemma single_status_other (cfg : PipelineConfig) (beh : AgentBehavior) (s : String)
    (input : PyVal) (st : ManagerState) (n : String) (h : n ≠ s) :
    step_status (single_state (execute_single_step cfg beh s input st)).progress n =
      step_status st.progress n := by
  have hfind : ∀ (l : List StepProgress) (status : String) (pct : Nat),
      (update_first_step l s status pct).find? (fun st2 => st2.agent_type == n) =
        l.find? (fun st2 => st2.agent_type == n) :=
    fun l status pct => find?_update_first_step l s status pct n h
  unfold execute_single_step
  split
  · rfl
  next sc heq =>
    have hname : sc.agent_type = s := by
      have h2 := List.find?_some heq
      simpa using h2
    split
    · exact iterative_status_other beh sc input st n (by rw [hname]; exact h)
    · split
      · split
        · simp [single_state, observe, step_status, update_step_progress,
            update_overall_progress, hfind]
        · split
          · simp [single_state, observe, step_status, update_step_progress,
              update_overall_progress, hfind]
          · simp [single_state, observe, step_status, update_step_progress,
              update_overall_progress, hfind]
      · rfl

/-- The parallel branch only touches the statuses of its own steps. -/
lemma group_multi_status_other (cfg : PipelineConfig) (beh : AgentBehavior) :
    ∀ (names : List String) (input : PyVal) (st : ManagerState)
      (acc : List (String × PyVal)) (n : String), n ∉ names →
      step_status (execute_group_multi cfg beh names input st acc).2.progress n =
        step_status st.progress n := by
  intro names
  induction names with
  | nil =>
      intro input st acc n _
      rfl
  | cons a rest ih =>
      intro input st acc n hn
      have hna : n ≠ a := fun hc => hn (by rw [hc]; exact List.mem_cons_self a rest)
      have hnr : n ∉ rest := fun hc => hn (List.mem_cons_of_mem a hc)
      rw [execute_group_multi]
      cases hstep : execute_single_step cfg beh a input st with
      | ok pr =>
          obtain ⟨r, st'⟩ := pr
          rw [ih input st' _ n hnr]
          have := single_status_other cfg beh a input st n hna
          rw [hstep] at this
          exact this
      | error pr =>
          obtain ⟨e, st'⟩ := pr
          rw [ih input st' _ n hnr]
          have := single_status_other cfg beh a input st n hna
          rw [hstep] at this
          exact this

/-- A wave only touches the statuses of its own steps. -/
lemma group_status_other (cfg : PipelineConfig) (beh : AgentBehavior)
    (names : List String) (input : PyVal) (st : ManagerState) (n : String)
    (hn : n ∉ names) :
    step_status (group_state (execute_step_group cfg beh names input st)).progress n =
      step_status st.progress n := by
  match names with
  | [a] =>
      have hna : n ≠ a := fun hc => hn (by rw [hc]; exact List.mem_cons_self a [])
      rw [execute_step_group]
      cases hstep : execute_single_step cfg beh a input st with
      | ok pr =>
          obtain ⟨r, st'⟩ := pr
          have := single_status_other cfg beh a input st n hna
          rw [hstep] at this
          exact this
      | error pr =>
          have := single_status_other cfg beh a input st n hna
          rw [hstep] at this
          exact this
  | [] =>
      rfl
  | a :: b :: rest =>
      rw [execute_step_group]
      · exact group_multi_status_other cfg beh (a :: b :: rest) input st [] n hn
      · intro x hx
        simp at hx

/-- The wave loop only touches the statuses of steps named in its waves. -/
lemma waves_status_other (cfg : PipelineConfig) (beh : AgentBehavior) :
    ∀ (ws : List (List String)) (input : PyVal) (res : List (String × PyVal))
      (st : ManagerState) (n : String), (∀ w ∈ ws, n ∉ w) →
      step_status (waves_state (run_waves cfg beh ws input res st)).progress n =
        step_status st.progress n := by
  intro ws
  induction ws with
  | nil =>
      intro input res st n _
      rfl
  | cons w rest ih =>
      intro input res st n hn
      rw [run_waves]
      cases hgrp : execute_step_group cfg beh w input st with
      | error pr =>
          have := group_status_other cfg beh w input st n (hn w (List.mem_cons_self w rest))
          rw [hgrp] at this
          exact this
      | ok pr =>
          obtain ⟨gr, st'⟩ := pr
          have h1 := group_status_other cfg beh w input st n (hn w (List.mem_cons_self w rest))
          rw [hgrp] at h1
          have h2 := ih (if gr.isEmpty then input else (gr.getLastD ("", .pyNone)).2)
            (dict_update res gr) st' n (fun w2 hw2 => hn w2 (List.mem_cons_of_mem w hw2))
          rw [h2]
          exact h1

/-- Wave-loop compositionality: a successful prefix of waves continues with
the remaining waves from its resulting data and state. -/
lemma run_waves_append_ok (cfg : PipelineConfig) (beh : AgentBehavior)
    (ws1 : List (List String)) :
    ∀ (ws2 : List (List String)) (input : PyVal) (res : List (String × PyVal))
      (st : ManagerState) (cur : PyVal) (res2 : List (String × PyVal)) (st2 : ManagerState),
      run_waves cfg beh ws1 input res st = .ok (cur, res2, st2) →
      run_waves cfg beh (ws1 ++ ws2) input res st = run_waves cfg beh ws2 cur res2 st2 := by
  induction ws1 with
  | nil =>
      intro ws2 input res st cur res2 st2 h
      rw [run_waves] at h
      injection h with h2
      obtain ⟨rfl, rfl, rfl⟩ : input = cur ∧ res = res2 ∧ st = st2 := by
        refine ⟨?_, ?_, ?_⟩ <;> cases h2 <;> rfl
      rfl
  | cons w rest ih =>
      intro ws2 input res st cur res2 st2 h
      rw [List.cons_append, run_waves]
      rw [run_waves] at h
      cases hgrp : execute_step_group cfg beh w input st with
      | error pr =>
          rw [hgrp] at h
          cases h
      | ok pr =>
          obtain ⟨gr, st'⟩ := pr
          rw [hgrp] at h
          exact ih ws2 _ _ _ cur res2 st2 h

/-- `execute_pipeline` with a loaded configuration, when the wave loop
raises: the except branch returns the failure dict (no results key). -/
lemma execute_pipeline_of_waves_error (cfg : PipelineConfig) (beh : AgentBehavior)
    (input : PyVal) (st : ManagerState) (e : String) (st1 : ManagerState)
    (h : run_waves cfg beh cfg.get_execution_order input [] (start_run_state st) =
      .error (e, st1)) :
    execute_pipeline (some cfg) beh input st =
      .ok ({ success := false, error := some e, pipeline_name := cfg.name },
        observe { st1 with progress :=
          { st1.progress with is_running := false, has_failures := true } }) := by
  simp only [execute_pipeline]
  rw [h]

/-- `execute_pipeline` with a loaded configuration, when the wave loop
completes: the success dict carries the merged results. -/
lemma execute_pipeline_of_waves_ok (cfg : PipelineConfig) (beh : AgentBehavior)
    (input : PyVal) (st : ManagerState) (cur : PyVal) (res : List (String × PyVal))
    (st1 : ManagerState)
    (h : run_waves cfg beh cfg.get_execution_order input [] (start_run_state st) =
      .ok (cur, res, st1)) :
    execute_pipeline (some cfg) beh input st =
      .ok ({ success := true, results := some res, pipeline_name := cfg.name },
        observe { st1 with progress :=
          { st1.progress with
            is_running := false
            is_completed := true
            progress_percentage := 100 } }) := by
  simp only [execute_pipeline]
  rw [h]

/-- A required regular step whose agent raises makes `_execute_single_step`
re-raise after recording the failure. -/
lemma single_step_required_failure (cfg : PipelineConfig) (beh : AgentBehavior)
    (s : String) (input : PyVal) (st : ManagerState) (sc : StepConfig) (e : String)
    (hsc : cfg.get_step s = some sc) (hreg : sc.is_iterative = false)
    (hopt : sc.optional = false) (hact : s ∈ beh.active_agents)
    (hfail : beh.process s input = .error e) :
    ∃ st2, execute_single_step cfg beh s input st = .error (e, st2) := by
  unfold execute_single_step
  split
  · next heq =>
      rw [hsc] at heq
      cases heq
  · next sc2 heq =>
      have hsc2 : sc2 = sc := by
        rw [hsc] at heq
        injection heq with h2
        exact h2.symm
      subst hsc2
      rw [if_neg (by rw [hreg]; simp)]
      rw [if_pos hact]
      dsimp only
      cases hbp : beh.process s input with
      | ok r =>
          rw [hfail] at hbp
          cases hbp
      | error e2 =>
          rw [hfail] at hbp
          injection hbp with he
          subst he
          simp [hopt]

/-- In the freshly initialized progress, no step status is `completed`. -/
lemma init_status_not_completed (cfg : PipelineConfig) (n : String) :
    step_status (init_progress cfg) n ≠ some "completed" := by
  intro hc
  unfold step_status init_progress at hc
  dsimp only at hc
  cases hfind : (cfg.steps.map (fun s =>
      ({ agent_type := s.agent_type, status := "pending", progress_percentage := 0,
         optional := s.optional } : StepProgress))).find?
      (fun s => s.agent_type == n) with
  | none => rw [hfind] at hc; cases hc
  | some sp =>
      rw [hfind] at hc
      have hmem := List.mem_of_find?_eq_some hfind
      obtain ⟨s0, _, hs0⟩ := List.mem_map.mp hmem
      have hstat : sp.status = "pending" := by rw [← hs0]
      have hc' : some sp.status = some "completed" := hc
      injection hc' with hc2
      rw [hstat] at hc2
      exact absurd hc2 (by decide)

/-! ## C3 -/

/-- Pipeline for the C3 counterexample: required steps `a`, `b` share a
two-step wave, required step `c` follows in a later wave. -/
def c3_cfg : PipelineConfig :=
  { name := "p"
    steps := [{ agent_type := "a", optional := false },
              { agent_type := "b", optional := false },
              { agent_type := "c", optional := false }]
    execution_order := [["a", "b"], ["c"]] }

/-- Behavior for the C3 counterexample: required step `a` raises, the
others succeed. -/
def c3_beh : AgentBehavior :=
  { active_agents := ["a", "b", "c"]
    process := fun n _ => if n == "a" then .error "boom" else .ok (.str ("out-" ++ n))
    loop_env := fun _ _ => (.err "unused" 0, .err "unused" 0) }

/-- C3 counterexample: when the failing required step's wave holds two
steps, the group-level gather catches its exception, so the later wave still
executes: step `c` of the later wave ends `completed`, appears in the result
map, and the run even reports `success = true`. -/
theorem C3_counterexample_multi_step_wave :
    ((execute_pipeline (some c3_cfg) c3_beh (.str "req") (init_manager_state c3_cfg)).toOption.map
        (fun r => (r.1.success, step_status r.2.progress "a", step_status r.2.progress "c",
          r.1.results.map (fun res => dictLookup res "c")))) =
      some (true, some "failed", some "completed", some (some (.str "out-c"))) := by
  rfl

/-- C3 amended: a required step's failure halts all subsequent waves when
the failing step's wave contains exactly one step: the run returns
`success = false` with no results map, and no step of a later wave is
executed or ever shows status `completed` (when the failing step's wave
contains several steps, the group-level gather swallows the exception and
later waves still run). -/
theorem C3_amended_required_failure_halts (cfg : PipelineConfig) (beh : AgentBehavior)
    (input : PyVal) (pre post : List (List String)) (s : String) (sc : StepConfig)
    (cur : PyVal) (res1 : List (String × PyVal)) (st1 : ManagerState) (e : String)
    (horder : cfg.execution_order = pre ++ [s] :: post)
    (hnd : cfg.execution_order.flatten.Nodup)
    (hpre : run_waves cfg beh pre input [] (start_run_state (init_manager_state cfg)) =
      .ok (cur, res1, st1))
    (hsc : cfg.get_step s = some sc)
    (hreg : sc.is_iterative = false)
    (hopt : sc.optional = false)
    (hact : s ∈ beh.active_agents)
    (hfail : beh.process s cur = .error e) :
    ∃ fin : ManagerState,
      execute_pipeline (some cfg) beh input (init_manager_state cfg) =
        .ok ({ success := false, results := none, error := some e,
               pipeline_name := cfg.name }, fin) ∧
      ∀ n ∈ post.flatten, step_status fin.progress n ≠ some "completed" := by
  obtain ⟨st2, hs2⟩ := single_step_required_failure cfg beh s cur st1 sc e
    hsc hreg hopt hact hfail
  have hwaves : run_waves cfg beh cfg.get_execution_order input []
      (start_run_state (init_manager_state cfg)) = .error (e, st2) := by
    rw [PipelineConfig.get_execution_order, horder,
      run_waves_append_ok cfg beh pre ([s] :: post) input [] _ cur res1 st1 hpre]
    rw [run_waves]
    rw [execute_step_group]
    rw [hs2]
  refine ⟨_, execute_pipeline_of_waves_error cfg beh input (init_manager_state cfg) e st2
    hwaves, ?_⟩
  intro n hn
  -- disjointness facts from the planner waves being duplicate-free
  have hnd2 : (pre.flatten ++ s :: post.flatten).Nodup := by
    rw [horder] at hnd
    rw [List.flatten_append] at hnd
    simpa using hnd
  have hns : n ≠ s := by
    intro hc
    subst hc
    have h3 : (n :: post.flatten).Nodup := hnd2.of_append_right
    exact (List.nodup_cons.mp h3).1 hn
  have hnpre : ∀ w ∈ pre, n ∉ w := by
    intro w hw hnw
    have hdisj := List.disjoint_of_nodup_append hnd2
    exact hdisj (List.mem_flatten_of_mem hw hnw) (List.mem_cons_of_mem s hn)
  -- the final state's statuses for later-wave steps are untouched
  have hfin : step_status (observe { st2 with progress :=
      { st2.progress with is_running := false, has_failures := true } }).progress n =
      step_status st2.progress n := rfl
  rw [hfin]
  have h1 : step_status st2.progress n = step_status st1.progress n := by
    have := single_status_other cfg beh s cur st1 n hns
    rw [hs2] at this
    exact this
  have h2 : step_status st1.progress n =
      step_status (start_run_state (init_manager_state cfg)).progress n := by
    have := waves_status_other cfg beh pre input [] (start_run_state (init_manager_state cfg))
      n hnpre
    rw [hpre] at this
    exact this
  have h3 : step_status (start_run_state (init_manager_state cfg)).progress n =
      step_status (init_progress cfg) n := rfl
  rw [h1, h2, h3]
  exact init_status_not_completed cfg n

/-- Pipeline for the C3 witness: two required steps in single-step waves. -/
def c3b_cfg : PipelineConfig :=
  { name := "p2"
    steps := [{ agent_type := "a", optional := false },
              { agent_type := "c", optional := false }]
    execution_order := [["a"], ["c"]] }

/-- C3 witness: required step `a` alone in its wave fails; the run halts
with a failure dict and step `c` never completes. -/
theorem C3_witness :
    ∃ fin : ManagerState,
      execute_pipeline (some c3b_cfg) c3_beh (.str "req") (init_manager_state c3b_cfg) =
        .ok ({ success := false, results := none, error := some "boom",
               pipeline_name := "p2" }, fin) ∧
      ∀ n ∈ [["c"]].flatten, step_status fin.progress n ≠ some "completed" :=
  C3_amended_required_failure_halts c3b_cfg c3_beh (.str "req") [] [["c"]] "a"
    { agent_type := "a", optional := false } (.str "req") []
    (start_run_state (init_manager_state c3b_cfg)) "boom"
    rfl (by decide) rfl rfl rfl rfl (by decide) rfl

/-! ## Progress invariant machinery -/

/-- `pct_of` facts: nonnegative, monotone in the completed count, and at
most 100 when completed does not exceed total. -/
lemma pct_of_nonneg (c t : Nat) : 0 ≤ pct_of c t := by
  unfold pct_of
  by_cases ht : t > 0
  · rw [if_pos ht]
    positivity
  · rw [if_neg ht]

lemma pct_of_mono (t : Nat) {c c' : Nat} (h : c ≤ c') : pct_of c t ≤ pct_of c' t := by
  unfold pct_of
  by_cases ht : t > 0
  · rw [if_pos ht, if_pos ht]
    have htq : (0 : ℚ) < t := by exact_mod_cast ht
    have hc : (c : ℚ) ≤ (c' : ℚ) := by exact_mod_cast h
    have := (div_le_div_iff_of_pos_right htq).mpr hc
    nlinarith
  · rw [if_neg ht, if_neg ht]

lemma pct_of_le_100 {c t : Nat} (h : c ≤ t) : pct_of c t ≤ 100 := by
  unfold pct_of
  by_cases ht : t > 0
  · rw [if_pos ht]
    have htq : (0 : ℚ) < t := by exact_mod_cast ht
    have hc : (c : ℚ) ≤ (t : ℚ) := by exact_mod_cast h
    have h1 : (c : ℚ) / (t : ℚ) ≤ 1 := (div_le_one htq).mpr hc
    nlinarith
  · rw [if_neg ht]
    norm_num

lemma pct_of_zero (t : Nat) : pct_of 0 t = 0 := by
  unfold pct_of
  by_cases ht : t > 0
  · rw [if_pos ht]
    simp
  · rw [if_neg ht]

/-- Run invariant: within one run (before completion) the recorded
snapshots form a non-decreasing percentage chain, all below the current
percentage, none completed, and the current percentage never exceeds what
the completed-step count justifies. -/
def run_inv (total : Nat) (st : ManagerState) : Prop :=
  st.progress.total_steps = total ∧
  List.Chain' (· ≤ ·) (st.trace.map (fun p => p.progress_percentage)) ∧
  (∀ p ∈ st.trace, p.progress_percentage ≤ st.progress.progress_percentage) ∧
  (∀ p ∈ st.trace, p.is_completed = false) ∧
  st.progress.is_completed = false ∧
  st.progress.progress_percentage ≤ pct_of st.progress.completed_steps total

/-- Observing (publishing an event) preserves the run invariant. -/
lemma inv_observe (total : Nat) (st : ManagerState) (h : run_inv total st) :
    run_inv total (observe st) := by
  obtain ⟨h1, h2, h3, h4, h5, h6⟩ := h
  refine ⟨h1, ?_, ?_, ?_, h5, h6⟩
  · show List.Chain' (· ≤ ·) ((st.trace ++ [st.progress]).map (fun p => p.progress_percentage))
    rw [List.map_append]
    rw [List.chain'_append]
    refine ⟨h2, List.chain'_singleton _, ?_⟩
    intro x hx y hy
    simp only [List.map_cons, List.map_nil, List.head?_cons, Option.mem_def,
      Option.some.injEq] at hy
    subst hy
    have hx2 := List.mem_of_mem_getLast? hx
    obtain ⟨p, hp, rfl⟩ := List.mem_map.mp hx2
    exact h3 p hp
  · intro p hp
    rcases List.mem_append.mp hp with hp1 | hp2
    · exact h3 p hp1
    · simp only [List.mem_singleton] at hp2
      subst hp2
      exact le_refl _
  · intro p hp
    rcases List.mem_append.mp hp with hp1 | hp2
    · exact h4 p hp1
    · simp only [List.mem_singleton] at hp2
      subst hp2
      exact h5

/-- Replacing the progress with one of equal percentage, equal total, at
least as many completed steps and still not completed preserves the run
invariant. -/
lemma inv_replace (total : Nat) (st : ManagerState) (p : ProgressData)
    (h : run_inv total st)
    (htot : p.total_steps = total)
    (hpct : p.progress_percentage = st.progress.progress_percentage)
    (hcomp : st.progress.completed_steps ≤ p.completed_steps)
    (hic : p.is_completed = false) :
    run_inv total { st with progress := p } := by
  obtain ⟨h1, h2, h3, h4, h5, h6⟩ := h
  refine ⟨htot, h2, ?_, h4, hic, ?_⟩
  · intro q hq
    rw [show ({ st with progress := p } : ManagerState).progress = p from rfl, hpct]
    exact h3 q hq
  · show p.progress_percentage ≤ pct_of p.completed_steps total
    rw [hpct]
    exact le_trans h6 (pct_of_mono total hcomp)

/-- Recomputing the overall percentage after possibly bumping counters
preserves the run invariant. -/
lemma inv_overall (total : Nat) (st : ManagerState) (p : ProgressData)
    (h : run_inv total st)
    (htot : p.total_steps = total)
    (hcomp : st.progress.completed_steps ≤ p.completed_steps)
    (hic : p.is_completed = false) :
    run_inv total { st with progress := update_overall_progress p } := by
  obtain ⟨h1, h2, h3, h4, h5, h6⟩ := h
  have hnew : (update_overall_progress p).progress_percentage =
      pct_of p.completed_steps total := by
    show pct_of p.completed_steps p.total_steps = pct_of p.completed_steps total
    rw [htot]
  have hup : st.progress.progress_percentage ≤ pct_of p.completed_steps total :=
    le_trans h6 (pct_of_mono total hcomp)
  refine ⟨htot, h2, ?_, h4, hic, ?_⟩
  · intro q hq
    show q.progress_percentage ≤ (update_overall_progress p).progress_percentage
    rw [hnew]
    exact le_trans (h3 q hq) hup
  · show (update_overall_progress p).progress_percentage ≤
      pct_of (update_overall_progress p).completed_steps total
    rw [hnew]
    exact le_refl _

/-- The state carried by both branches of an optional-failure return. -/
lemma single_state_ite (c : Prop) [Decidable c] (a : PyVal) (b : String) (X : ManagerState) :
    single_state (if c then Except.ok (a, X) else Except.error (b, X)) = X := by
  by_cases hc : c
  · rw [if_pos hc]
    rfl
  · rw [if_neg hc]
    rfl

/-- An iterative step preserves the run invariant and completes at most one
step. -/
lemma inv_iterative_step (beh : AgentBehavior) (sc : StepConfig) (input : PyVal)
    (st : ManagerState) (total : Nat) (h : run_inv total st) :
    run_inv total (single_state (execute_iterative_step beh sc input st)) ∧
    (single_state (execute_iterative_step beh sc input st)).progress.completed_steps ≤
      st.progress.completed_steps + 1 := by
  have h5 := h.2.2.2.2.1
  have h1 := h.1
  unfold execute_iterative_step
  split
  · exact ⟨h, Nat.le_succ _⟩
  next ic hic =>
    split
    · split
      · set LR := execute_iterative_loop sc.agent_type (beh.loop_env sc.agent_type)
          ic.improver_agent ic.evaluator_agent input ic.max_iterations ic.quality_threshold
          with hLR
        have hrun : run_inv total (observe { st with progress := update_step_progress st.progress sc.agent_type "running" 0 }) :=
          inv_observe total _ (inv_replace total st _ h h1 rfl (le_refl _) h5)
        by_cases h3 : (LR.threshold_met || LR.final_output.isSome) = true
        · rw [if_pos h3]
          refine ⟨?_, Nat.le_refl _⟩
          exact inv_overall total _ _
            (inv_observe total _ (inv_replace total _ _ hrun h1 rfl (Nat.le_succ _) h5))
            h1 (le_refl _) h5
        · rw [if_neg h3]
          by_cases h4 : sc.optional = true
          · rw [if_pos h4]
            refine ⟨?_, Nat.le_succ _⟩
            exact inv_overall total _ _
              (inv_observe total _ (inv_replace total _ _ hrun h1 rfl (le_refl _) h5))
              h1 (le_refl _) h5
          · rw [if_neg h4]
            refine ⟨?_, Nat.le_succ _⟩
            exact inv_overall total _ _
              (inv_observe total _ (inv_overall total _ _
                (inv_observe total _ (inv_replace total _ _ hrun h1 rfl (le_refl _) h5))
                h1 (le_refl _) h5))
              h1 (le_refl _) h5
      · exact ⟨h, Nat.le_succ _⟩
    · exact ⟨h, Nat.le_succ _⟩

/-- Projection computation lemmas for the state-of helpers. -/
lemma single_state_ok (r : PyVal) (st : ManagerState) :
    single_state (.ok (r, st)) = st := rfl

lemma single_state_error (e : String) (st : ManagerState) :
    single_state (.error (e, st)) = st := rfl

lemma group_state_ok (r : List (String × PyVal)) (st : ManagerState) :
    group_state (.ok (r, st)) = st := rfl

lemma group_state_error (e : String) (st : ManagerState) :
    group_state (.error (e, st)) = st := rfl

lemma waves_state_ok (cur : PyVal) (res : List (String × PyVal)) (st : ManagerState) :
    waves_state (.ok (cur, res, st)) = st := rfl

lemma waves_state_error (e : String) (st : ManagerState) :
    waves_state (.error (e, st)) = st := rfl

/-- A single step preserves the run invariant and completes at most one
step. -/
lemma inv_single_step (cfg : PipelineConfig) (beh : AgentBehavior) (s : String)
    (input : PyVal) (st : ManagerState) (total : Nat) (h : run_inv total st) :
    run_inv total (single_state (execute_single_step cfg beh s input st)) ∧
    (single_state (execute_single_step cfg beh s input st)).progress.completed_steps ≤
      st.progress.completed_steps + 1 := by
  have h5 := h.2.2.2.2.1
  have h1 := h.1
  unfold execute_single_step
  split
  · exact ⟨h, Nat.le_succ _⟩
  next sc heq =>
    split
    · exact inv_iterative_step beh sc input st total h
    · split
      · have hrun : run_inv total (observe { st with progress := update_step_progress st.progress s "running" 0 }) :=
          inv_observe total _ (inv_replace total st _ h h1 rfl (le_refl _) h5)
        cases hbp : beh.process s input with
        | ok r =>
            refine ⟨?_, Nat.le_refl _⟩
            exact inv_observe total _ (inv_overall total _ _ hrun h1 (Nat.le_succ _) h5)
        | error e =>
            rw [single_state_ite]
            refine ⟨?_, Nat.le_succ _⟩
            exact inv_observe total _ (inv_overall total _ _ hrun h1 (le_refl _) h5)
      · exact ⟨h, Nat.le_succ _⟩

/-- The parallel branch preserves the run invariant and completes at most
one step per name. -/
lemma inv_group_multi (cfg : PipelineConfig) (beh : AgentBehavior) :
    ∀ (names : List String) (input : PyVal) (st : ManagerState)
      (acc : List (String × PyVal)) (total : Nat), run_inv total st →
      run_inv total (execute_group_multi cfg beh names input st acc).2 ∧
      (execute_group_multi cfg beh names input st acc).2.progress.completed_steps ≤
        st.progress.completed_steps + names.length := by
  intro names
  induction names with
  | nil =>
      intro input st acc total h
      exact ⟨h, Nat.le_refl _⟩
  | cons a rest ih =>
      intro input st acc total h
      rw [execute_group_multi]
      have hs := inv_single_step cfg beh a input st total h
      cases hstep : execute_single_step cfg beh a input st with
      | ok pr =>
          obtain ⟨r, st'⟩ := pr
          rw [hstep, single_state_ok] at hs
          have hrest := ih input st' (acc ++ [(a, r)]) total hs.1
          refine ⟨hrest.1, ?_⟩
          have hb1 := hrest.2
          have hb2 := hs.2
          simp only [List.length_cons]
          omega
      | error pr =>
          obtain ⟨e, st'⟩ := pr
          rw [hstep, single_state_error] at hs
          have hrest := ih input st' (acc ++ [(a, .dict [("error", .str e)])]) total hs.1
          refine ⟨hrest.1, ?_⟩
          have hb1 := hrest.2
          have hb2 := hs.2
          simp only [List.length_cons]
          omega

/-- A wave preserves the run invariant and completes at most one step per
member. -/
lemma inv_group (cfg : PipelineConfig) (beh : AgentBehavior) (names : List String)
    (input : PyVal) (st : ManagerState) (total : Nat) (h : run_inv total st) :
    run_inv total (group_state (execute_step_group cfg beh names input st)) ∧
    (group_state (execute_step_group cfg beh names input st)).progress.completed_steps ≤
      st.progress.completed_steps + names.length := by
  match names with
  | [a] =>
      rw [execute_step_group]
      have hs := inv_single_step cfg beh a input st total h
      cases hstep : execute_single_step cfg beh a input st with
      | ok pr =>
          obtain ⟨r, st'⟩ := pr
          rw [hstep, single_state_ok] at hs
          exact ⟨hs.1, hs.2⟩
      | error pr =>
          obtain ⟨e, st'⟩ := pr
          rw [hstep, single_state_error] at hs
          exact ⟨hs.1, hs.2⟩
  | [] =>
      exact ⟨h, Nat.le_refl _⟩
  | a :: b :: rest =>
      rw [execute_step_group]
      · exact inv_group_multi cfg beh (a :: b :: rest) input st [] total h
      · intro x hx
        simp at hx

/-- The wave loop preserves the run invariant and completes at most one
step per name across all waves. -/
lemma inv_waves (cfg : PipelineConfig) (beh : AgentBehavior) :
    ∀ (ws : List (List String)) (input : PyVal) (res : List (String × PyVal))
      (st : ManagerState) (total : Nat), run_inv total st →
      run_inv total (waves_state (run_waves cfg beh ws input res st)) ∧
      (waves_state (run_waves cfg beh ws input res st)).progress.completed_steps ≤
        st.progress.completed_steps + ws.flatten.length := by
  intro ws
  induction ws with
  | nil =>
      intro input res st total h
      exact ⟨h, Nat.le_refl _⟩
  | cons w rest ih =>
      intro input res st total h
      rw [run_waves]
      have hg := inv_group cfg beh w input st total h
      have hlen : ((w :: rest).flatten).length = w.length + rest.flatten.length := by
        simp
      cases hgrp : execute_step_group cfg beh w input st with
      | error pr =>
          obtain ⟨e, st'⟩ := pr
          rw [hgrp, group_state_error] at hg
          refine ⟨hg.1, ?_⟩
          show st'.progress.completed_steps ≤
            st.progress.completed_steps + ((w :: rest).flatten).length
          have hb := hg.2
          omega
      | ok pr =>
          obtain ⟨gr, st'⟩ := pr
          rw [hgrp, group_state_ok] at hg
          have hrest := ih (if gr.isEmpty then input else (gr.getLastD ("", .pyNone)).2)
            (dict_update res gr) st' total hg.1
          refine ⟨hrest.1, ?_⟩
          show (waves_state (run_waves cfg beh rest
              (if gr.isEmpty then input else (gr.getLastD ("", .pyNone)).2)
              (dict_update res gr) st')).progress.completed_steps ≤
            st.progress.completed_steps + ((w :: rest).flatten).length
          have hb1 := hrest.2
          have hb2 := hg.2
          omega

/-- A duplicate-free list included in another is no longer than it. -/
lemma nodup_subset_length {α : Type} [DecidableEq α] {l1 l2 : List α}
    (h : l1.Nodup) (hs : ∀ x ∈ l1, x ∈ l2) : l1.length ≤ l2.length := by
  classical
  calc l1.length = l1.toFinset.card := (List.toFinset_card_of_nodup h).symm
    _ ≤ l2.toFinset.card := Finset.card_le_card (fun x hx => by
        simp only [List.mem_toFinset] at hx ⊢
        exact hs x hx)
    _ ≤ l2.length := l2.toFinset_card_le

/-- The run invariant holds at the start of a run from a freshly
initialized manager. -/
lemma inv_start (cfg : PipelineConfig) :
    run_inv cfg.steps.length (start_run_state (init_manager_state cfg)) := by
  refine ⟨rfl, List.chain'_singleton _, ?_, ?_, rfl, ?_⟩
  · intro p hp
    have hp2 : p = { (init_progress cfg) with
        is_running := true, is_completed := false, has_failures := false } := by
      simpa [start_run_state, observe, init_manager_state] using hp
    subst hp2
    exact le_refl _
  · intro p hp
    have hp2 : p = { (init_progress cfg) with
        is_running := true, is_completed := false, has_failures := false } := by
      simpa [start_run_state, observe, init_manager_state] using hp
    subst hp2
    rfl
  · show (0 : ℚ) ≤ pct_of 0 cfg.steps.length
    rw [pct_of_zero]

/-- The manager state after a full run (the outer exception never fires
when a configuration is loaded, so the fallback is unreachable). -/
def pipeline_final_state (cfg : PipelineConfig) (beh : AgentBehavior) (input : PyVal) :
    ManagerState :=
  match execute_pipeline (some cfg) beh input (init_manager_state cfg) with
  | .ok (_, st) => st
  | .error _ => init_manager_state cfg

/-! ## C8 -/

/-- C8 amended: within one run from a freshly initialized manager (the
planner's waves naming each step at most once and only configured steps),
the `progress_percentage` visible through `get_progress` is monotonic
non-decreasing across every observable state of the run, and every
observable state with `is_completed = true` shows exactly 100 — but 100 can
also be observed while `is_completed` is still false (after the last step
completes, before the completion flags are set), so "equals 100 only when
completed" fails. -/
theorem C8_amended_progress_monotone (cfg : PipelineConfig) (beh : AgentBehavior)
    (input : PyVal)
    (hnd : cfg.execution_order.flatten.Nodup)
    (hsub : ∀ n ∈ cfg.execution_order.flatten, n ∈ cfg.steps.map (fun s2 => s2.agent_type)) :
    List.Chain' (· ≤ ·)
      ((pipeline_final_state cfg beh input).trace.map (fun p => p.progress_percentage)) ∧
    ∀ p ∈ (pipeline_final_state cfg beh input).trace,
      p.is_completed = true → p.progress_percentage = 100 := by
  have hlen : cfg.execution_order.flatten.length ≤ cfg.steps.length := by
    have h2 := nodup_subset_length hnd hsub
    rw [List.length_map] at h2
    exact h2
  have hstart := inv_start cfg
  have hinv := inv_waves cfg beh cfg.get_execution_order input []
    (start_run_state (init_manager_state cfg)) cfg.steps.length hstart
  have hstart0 : (start_run_state (init_manager_state cfg)).progress.completed_steps = 0 := rfl
  cases hw : run_waves cfg beh cfg.get_execution_order input []
      (start_run_state (init_manager_state cfg)) with
  | ok pr =>
      obtain ⟨cur, res, st1⟩ := pr
      rw [hw, waves_state_ok] at hinv
      obtain ⟨⟨hi1, hi2, hi3, hi4, hi5, hi6⟩, hcomp⟩ := hinv
      have hcomp2 : st1.progress.completed_steps ≤ cfg.steps.length := by
        rw [hstart0] at hcomp
        have hord : cfg.get_execution_order = cfg.execution_order := rfl
        rw [hord] at hcomp
        omega
      have hpct100 : st1.progress.progress_percentage ≤ 100 :=
        le_trans hi6 (pct_of_le_100 hcomp2)
      have hfin : pipeline_final_state cfg beh input =
          observe { st1 with progress :=
            { st1.progress with
              is_running := false
              is_completed := true
              progress_percentage := 100 } } := by
        unfold pipeline_final_state
        rw [execute_pipeline_of_waves_ok cfg beh input (init_manager_state cfg) cur res st1 hw]
      rw [hfin]
      constructor
      · show List.Chain' (· ≤ ·) ((st1.trace ++
          [{ st1.progress with
             is_running := false
             is_completed := true
             progress_percentage := 100 }]).map (fun p : ProgressData => p.progress_percentage))
        rw [List.map_append, List.chain'_append]
        refine ⟨hi2, List.chain'_singleton _, ?_⟩
        intro x hx y hy
        simp only [List.map_cons, List.map_nil, List.head?_cons, Option.mem_def,
          Option.some.injEq] at hy
        obtain ⟨p, hp, rfl⟩ := List.mem_map.mp (List.mem_of_mem_getLast? hx)
        rw [← hy]
        show p.progress_percentage ≤ (100 : ℚ)
        exact le_trans (hi3 p hp) hpct100
      · intro p hp
        rcases List.mem_append.mp hp with hp1 | hp2
        · intro hptrue
          rw [hi4 p hp1] at hptrue
          cases hptrue
        · simp only [List.mem_singleton] at hp2
          subst hp2
          intro _
          rfl
  | error pr =>
      obtain ⟨e, st1⟩ := pr
      rw [hw, waves_state_error] at hinv
      obtain ⟨⟨hi1, hi2, hi3, hi4, hi5, hi6⟩, hcomp⟩ := hinv
      have hfin : pipeline_final_state cfg beh input =
          observe { st1 with progress :=
            { st1.progress with is_running := false, has_failures := true } } := by
        unfold pipeline_final_state
        rw [execute_pipeline_of_waves_error cfg beh input (init_manager_state cfg) e st1 hw]
      rw [hfin]
      constructor
      · show List.Chain' (· ≤ ·) ((st1.trace ++
          [{ st1.progress with is_running := false, has_failures := true }]).map
            (fun p : ProgressData => p.progress_percentage))
        rw [List.map_append, List.chain'_append]
        refine ⟨hi2, List.chain'_singleton _, ?_⟩
        intro x hx y hy
        simp only [List.map_cons, List.map_nil, List.head?_cons, Option.mem_def,
          Option.some.injEq] at hy
        obtain ⟨p, hp, rfl⟩ := List.mem_map.mp (List.mem_of_mem_getLast? hx)
        rw [← hy]
        exact hi3 p hp
      · intro p hp
        rcases List.mem_append.mp hp with hp1 | hp2
        · intro hptrue
          rw [hi4 p hp1] at hptrue
          cases hptrue
        · simp only [List.mem_singleton] at hp2
          subst hp2
          intro hptrue
          rw [hi5] at hptrue
          cases hptrue

/-- One-required-step pipeline for the C8 counterexample. -/
def c8_cfg : PipelineConfig :=
  { name := "p"
    steps := [{ agent_type := "s", optional := false }]
    execution_order := [["s"]] }

/-- Behavior for the C8 counterexample: the single step succeeds. -/
def c8_beh : AgentBehavior :=
  { active_agents := ["s"]
    process := fun _ _ => .ok (.str "o")
    loop_env := fun _ _ => (.err "unused" 0, .err "unused" 0) }

/-- C8 counterexample: in a successful one-step run, the third observable
state (at the step-completed event publish) already shows
`progress_percentage = 100` while `is_completed` is still false — only the
fourth (at the pipeline-completed publish) has both; so 100 is not observed
only in completed states. -/
theorem C8_counterexample_100_while_running :
    (((pipeline_final_state c8_cfg c8_beh (.str "in")).trace[2]?).map
        (fun p => (p.progress_percentage, p.is_completed)) = some (100, false)) ∧
    (((pipeline_final_state c8_cfg c8_beh (.str "in")).trace[3]?).map
        (fun p => (p.progress_percentage, p.is_completed)) = some (100, true)) := by
  have hpct : pct_of 1 1 = 100 := by
    unfold pct_of
    norm_num
  constructor
  · simp [pipeline_final_state, execute_pipeline, start_run_state, init_manager_state,
      init_progress, c8_cfg, c8_beh, run_waves, execute_step_group, execute_single_step,
      PipelineConfig.get_step, PipelineConfig.get_execution_order, StepConfig.is_iterative,
      observe, update_step_progress, update_overall_progress, update_first_step,
      dict_update, List.find?, hpct]
  · simp [pipeline_final_state, execute_pipeline, start_run_state, init_manager_state,
      init_progress, c8_cfg, c8_beh, run_waves, execute_step_group, execute_single_step,
      PipelineConfig.get_step, PipelineConfig.get_execution_order, StepConfig.is_iterative,
      observe, update_step_progress, update_overall_progress, update_first_step,
      dict_update, List.find?, hpct]

/-- C8 witness: the amended property evaluated on the concrete one-step
run. -/
theorem C8_witness :
    List.Chain' (· ≤ ·)
      ((pipeline_final_state c8_cfg c8_beh (.str "in")).trace.map
        (fun p => p.progress_percentage)) ∧
    ∀ p ∈ (pipeline_final_state c8_cfg c8_beh (.str "in")).trace,
      p.is_completed = true → p.progress_percentage = 100 :=
  C8_amended_progress_monotone c8_cfg c8_beh (.str "in") (by decide) (by decide)
